import Mathlib

/-!
Shallow embedding of the impala front-end parser (src/frontend/parser.rs,
src/frontend/ast.rs, src/frontend/error.rs) together with the AST
pretty-printer, and theorems settling the frozen claims about it.

The token stream is modelled as a list held in the parser state; the
blocking channel receive of the Rust code becomes taking the head of that
list.  All parser routines are fuel-indexed so that the mutual recursion of
the grammar ladder is structural; fuel exhaustion is reported through a
distinguished error constructor that is never confused with a genuine
parse error.
-/

set_option maxRecDepth 100000

namespace Impala

/-- Token kinds, as used by `src/frontend/parser.rs`.  The lexer (token.rs)
is not part of the given sources; the set of kinds is exactly the set the
parser matches on. -/
inductive TokenType where
  | Equal | ColonEq | PipeEq | DollarEq
  | PlusEq | MinusEq | MulEq | DivEq | ModEq
  | DPlus | DMinus
  | True | False | Underscore | Null
  | Int | Float | Str | Atom | Id
  | LParen | RParen | LBracket | RBracket | LBrace | RBrace
  | MinusGT | Func | Public | At | Ellipsis
  | Match | Try | Else | Unsafe | Dollar
  | Def | Redef | Hash
  | Colon | Comma | Dot
  | RPipe | LPipe | LTilde | Question
  | Bang | Not | Minus | Div | Mul | Mod | Plus
  | GT | GTEq | LT | LTEq | BangEq | DEq
  | DAmp | And | DPipe | Or
  | EOF
deriving DecidableEq, Repr

/-- Modelled from the spec: a token as consumed by the parser
(`Token {kind, lexeme, line, col}`; the parser accesses `kind`, `value`
and `position.0` / `position.1`). -/
structure Token where
  kind : TokenType
  value : String
  position : Nat × Nat
deriving DecidableEq, Repr

/-- `Token::new` as used at parser.rs:509. -/
def Token.new (kind : TokenType) (value : String) (line col : Nat) : Token :=
  ⟨kind, value, (line, col)⟩

mutual
/-- The AST, from `src/frontend/ast.rs` (`enum Expr`). -/
inductive Expr where
  | Binary (left right : Expr) (op : Token)
  | Group (expr : Expr)
  | Unary (right : Expr) (op : Token)
  | StringLiteral (token : Token) (value : String)
  | FloatLiteral (token : Token) (value : String)
  | IntegerLiteral (token : Token) (value : Int)
  | BoolLiteral (token : Token) (payload : Bool)
  | AtomLiteral (token : Token) (value : String)
  | Underscore (token : Token)
  | Null (token : Token)
  | ListLiteral (token : Token) (values : List Expr)
  | ObjectLiteral (token : Token) (keys : List Token) (values : List Expr)
  | Logical (left right : Expr) (op : Token)
  | Variable (name : Token)
  | Assign (init public mutable : Bool) (token : Token) (left right : Expr)
  | Call (callee : Expr) (args : List CallArg) (token : Token)
  | Get (inst : Expr) (value : Expr) (token : Token)
  | Set (inst : Expr) (token : Token) (value : Expr)
  | Func (public : Bool) (name : Option Token) (params : List Token)
      (rest : Option Token) (body : Expr)
  | Match (token : Token) (condition : Expr) (branches : List MatchBranch)
  | Block (token : Token) (exprs : List Expr)
  | Unsafe (token : Token) (expr : Expr)
  | Shell (token : Token) (expr : Expr)
  | End

/-- A branch of a `match` expression (`struct MatchBranch`). -/
inductive MatchBranch where
  | mk (target : Expr) (body : Expr)

/-- A call argument (`enum CallArg`). -/
inductive CallArg where
  | Positional (e : Expr)
  | Unpacking (e : Expr)
end

deriving instance Repr for Expr, MatchBranch, CallArg

def MatchBranch.target : MatchBranch → Expr
  | MatchBranch.mk t _ => t

def MatchBranch.body : MatchBranch → Expr
  | MatchBranch.mk _ b => b

/-- `struct ParserError` from `src/frontend/error.rs`. -/
structure ParserError where
  msg : String
  line : Nat
  col : Nat
deriving DecidableEq, Repr

/-- `ParserError::format`. -/
def ParserError.format (e : ParserError) (filename : String) : String :=
  filename ++ ":" ++ toString e.line ++ ":" ++ toString e.col ++ " error: " ++ e.msg

/-- Name of a token kind, used when printing operator and keyword tokens. -/
def TokenType.name : TokenType → String
  | TokenType.Equal => "Equal" | TokenType.ColonEq => "ColonEq"
  | TokenType.PipeEq => "PipeEq" | TokenType.DollarEq => "DollarEq"
  | TokenType.PlusEq => "PlusEq" | TokenType.MinusEq => "MinusEq"
  | TokenType.MulEq => "MulEq" | TokenType.DivEq => "DivEq"
  | TokenType.ModEq => "ModEq" | TokenType.DPlus => "DPlus"
  | TokenType.DMinus => "DMinus" | TokenType.True => "True"
  | TokenType.False => "False" | TokenType.Underscore => "Underscore"
  | TokenType.Null => "Null" | TokenType.Int => "Int"
  | TokenType.Float => "Float" | TokenType.Str => "Str"
  | TokenType.Atom => "Atom" | TokenType.Id => "Id"
  | TokenType.LParen => "LParen" | TokenType.RParen => "RParen"
  | TokenType.LBracket => "LBracket" | TokenType.RBracket => "RBracket"
  | TokenType.LBrace => "LBrace" | TokenType.RBrace => "RBrace"
  | TokenType.MinusGT => "MinusGT" | TokenType.Func => "Func"
  | TokenType.Public => "Public" | TokenType.At => "At"
  | TokenType.Ellipsis => "Ellipsis" | TokenType.Match => "Match"
  | TokenType.Try => "Try" | TokenType.Else => "Else"
  | TokenType.Unsafe => "Unsafe" | TokenType.Dollar => "Dollar"
  | TokenType.Def => "Def" | TokenType.Redef => "Redef"
  | TokenType.Hash => "Hash" | TokenType.Colon => "Colon"
  | TokenType.Comma => "Comma" | TokenType.Dot => "Dot"
  | TokenType.RPipe => "RPipe" | TokenType.LPipe => "LPipe"
  | TokenType.LTilde => "LTilde" | TokenType.Question => "Question"
  | TokenType.Bang => "Bang" | TokenType.Not => "Not"
  | TokenType.Minus => "Minus" | TokenType.Div => "Div"
  | TokenType.Mul => "Mul" | TokenType.Mod => "Mod"
  | TokenType.Plus => "Plus" | TokenType.GT => "GT"
  | TokenType.GTEq => "GTEq" | TokenType.LT => "LT"
  | TokenType.LTEq => "LTEq" | TokenType.BangEq => "BangEq"
  | TokenType.DEq => "DEq" | TokenType.DAmp => "DAmp"
  | TokenType.And => "And" | TokenType.DPipe => "DPipe"
  | TokenType.Or => "Or" | TokenType.EOF => "EOF"

/-- Modelled from the spec: `Token::print` (token.rs is not part of the
given sources).  The spec's canonical-form examples print identifier and
literal tokens as their lexeme (`x`, `name`) and operator tokens as their
kind name (`(Plus 1 (Mul 2 3))`, `(Mod n 3)`, `Underscore`): identifiers,
numbers, strings and atoms print their lexeme, every other kind prints its
kind name. -/
def Token.print (t : Token) : String :=
  match t.kind with
  | TokenType.Id | TokenType.Int | TokenType.Float
  | TokenType.Str | TokenType.Atom => t.value
  | k => k.name

/-- Joins rendered pieces with single spaces (Rust `join(" ")`). -/
def joinSpace (l : List String) : String := String.intercalate " " l

mutual
/-- `Expr::print` from `src/frontend/ast.rs`: the canonical S-expression
rendering of an AST node. -/
def Expr.print : Expr → String
  | Expr.Binary left right op =>
      "(" ++ op.print ++ " " ++ Expr.print left ++ " " ++ Expr.print right ++ ")"
  | Expr.Group expr => "(" ++ Expr.print expr ++ ")"
  | Expr.Unary right op => "(" ++ op.print ++ " " ++ Expr.print right ++ ")"
  | Expr.StringLiteral _ value => "\"" ++ value ++ "\""
  | Expr.FloatLiteral _ value => value
  | Expr.IntegerLiteral _ value => toString value
  | Expr.BoolLiteral _ payload => if payload then "true" else "false"
  | Expr.AtomLiteral _ value => ":" ++ value
  | Expr.Underscore _ => ":_:"
  | Expr.Null _ => "null"
  | Expr.ListLiteral _ values =>
      if values.length > 0 then
        "(list " ++ joinSpace (Expr.printList values) ++ ")"
      else "(list)"
  | Expr.ObjectLiteral _ keys values =>
      if keys.length > 0 then
        "(object " ++ joinSpace (Expr.printPairs keys values) ++ ")"
      else "(object)"
  | Expr.Logical left right op =>
      "(" ++ op.print ++ " " ++ Expr.print left ++ " " ++ Expr.print right ++ ")"
  | Expr.Variable name => name.print
  | Expr.Assign init public mutable _ left right =>
      "(assign" ++ (if public then "P" else "") ++ (if init then "I" else "")
        ++ (if mutable then "M" else "") ++ " " ++ Expr.print left ++ " "
        ++ Expr.print right ++ ")"
  | Expr.Call callee args _ =>
      let builder := "(" ++ Expr.print callee
      if args.length > 0 then
        builder ++ " " ++ joinSpace (Expr.printArgs args) ++ ")"
      else builder ++ ")"
  | Expr.Get inst value _ => Expr.print inst ++ "." ++ Expr.print value
  | Expr.Set inst token value =>
      "(set " ++ Expr.print inst ++ "." ++ token.print ++ " " ++ Expr.print value ++ ")"
  | Expr.Func public name params rest body =>
      match name with
      | some name =>
          "(func" ++ (if public then " [public]" else "") ++ " " ++ name.print
            ++ " (" ++ joinSpace (params.map Token.print)
            ++ (match rest with
                | some rest =>
                    if params.length > 0 then " " ++ rest.print ++ "+"
                    else rest.print ++ "+"
                | none => "")
            ++ ") " ++ Expr.print body ++ ")"
      | none =>
          "(lambda (" ++ joinSpace (params.map Token.print) ++ ") "
            ++ Expr.print body ++ ")"
  | Expr.Match _ condition branches =>
      let builder := "(match " ++ Expr.print condition
      if branches.length > 0 then
        builder ++ " " ++ joinSpace (Expr.printBranches branches) ++ ")"
      else builder ++ ")"
  | Expr.Block _ exprs =>
      "(block" ++
        (let e := joinSpace (Expr.printList exprs)
         if e = "" then "" else " " ++ e) ++ ")"
  | Expr.Unsafe _ expr => "(unsafe " ++ Expr.print expr ++ ")"
  | Expr.Shell _ expr => "(shell_op " ++ Expr.print expr ++ ")"
  | Expr.End => ""

/-- Prints each expression of a list (`bulk_print!`). -/
def Expr.printList : List Expr → List String
  | [] => []
  | e :: es => Expr.print e :: Expr.printList es

/-- Prints the zipped `key:value` entries of an object literal. -/
def Expr.printPairs : List Token → List Expr → List String
  | k :: ks, v :: vs => (k.print ++ ":" ++ Expr.print v) :: Expr.printPairs ks vs
  | _, _ => []

/-- Prints one call argument: unpacking arguments get an `...` prefix. -/
def Expr.printArg : CallArg → String
  | CallArg.Positional e => Expr.print e
  | CallArg.Unpacking e => "..." ++ Expr.print e

/-- Prints each argument of a call. -/
def Expr.printArgs : List CallArg → List String
  | [] => []
  | a :: as => Expr.printArg a :: Expr.printArgs as

/-- Prints each branch of a match as `target -> body`. -/
def Expr.printBranches : List MatchBranch → List String
  | [] => []
  | MatchBranch.mk t b :: bs =>
      (Expr.print t ++ " -> " ++ Expr.print b) :: Expr.printBranches bs
end

/-- Modelled from the spec: Rust's `str::parse::<i64>` as invoked at
parser.rs:288 — an optional sign followed by decimal digits, rejected when
empty, malformed, or out of the `i64` range. -/
def parseI64 (v : String) : Option Int :=
  let signed : Int × List Char :=
    match v.data with
    | '+' :: rest => (1, rest)
    | '-' :: rest => (-1, rest)
    | cs => (1, cs)
  if signed.2.isEmpty then none
  else if signed.2.all Char.isDigit then
    let n : Nat := signed.2.foldl (fun a c => a * 10 + (c.toNat - 48)) 0
    let val : Int := signed.1 * n
    if -(2 ^ 63) ≤ val ∧ val < 2 ^ 63 then some val else none
  else none

/-- Modelled from the spec: Rust's `str::parse::<f64>` succeeding on the
float lexemes the lexer classifies (digits with an optional dot).  The
numeric payload is kept as the lexeme itself, since no claim depends on
float arithmetic. -/
def floatLexemeOk (v : String) : Bool :=
  !v.data.isEmpty && v.data.all (fun c => c.isDigit || c == '.')

/-- Parse-routine failure: a static diagnostic string (`&'static str` in
the Rust), or exhaustion of the modelling fuel (no counterpart in the
Rust, which is not fuel-limited; kept distinct so it is never confused
with a genuine parse error). -/
inductive PErr where
  | fuel
  | msg (s : String)
deriving DecidableEq, Repr

/-- Parser state: the `current`/`previous` cursor of `struct Parser`, the
not-yet-received suffix of the token channel, and the macro table. -/
structure PState where
  current : Token
  previous : Token
  rest : List Token
  macros : List (String × Expr)

/-- `Parser::is_end`. -/
def PState.isEnd (s : PState) : Bool := s.current.kind = TokenType.EOF

/-- `Parser::advance`: unless at end-of-stream, shift `current` into
`previous` and receive the next token.  An exhausted channel before the
EOF token (a closed-channel panic in the Rust) leaves the state unchanged;
it is unreachable for EOF-terminated inputs. -/
def PState.advance (s : PState) : PState :=
  if s.isEnd then s
  else
    match s.rest with
    | [] => s
    | t :: ts => { s with previous := s.current, current := t, rest := ts }

/-- `Parser::check_current`. -/
def PState.checkCurrent (s : PState) (kind : TokenType) : Bool := s.current.kind = kind

/-- `Parser::does_match`: consume the current token iff its kind is among
the given kinds. -/
def doesMatch (s : PState) : List TokenType → Bool × PState
  | [] => (false, s)
  | k :: ks => if s.checkCurrent k then (true, s.advance) else doesMatch s ks

/-- Result of a parse routine: Rust `Result<α, &'static str>` together
with the (always surviving) parser state. -/
abbrev PRes (α : Type) := Except PErr α × PState

/-- Sequencing of parse routines: the `?` operator, which propagates an
error while keeping the parser state. -/
def pbind {α β : Type} : PRes α → (α → PState → PRes β) → PRes β
  | (Except.error e, s), _ => (Except.error e, s)
  | (Except.ok v, s), k => k v s

/-- The `expect!` macro from parser.rs: advance past a required token kind
or fail with the given message. -/
def expect (s : PState) (kind : TokenType) (m : String) : PRes Unit :=
  if s.checkCurrent kind then (Except.ok (), s.advance)
  else (Except.error (PErr.msg m), s)

/-- `if self.does_match(&[...]) { ... } else { ... }` as a combinator. -/
def ifMatch {α : Type} (s : PState) (kinds : List TokenType) (tb eb : PState → α) : α :=
  let r := doesMatch s kinds
  if r.1 then tb r.2 else eb r.2

/-- `HashMap::insert` on the macro table (replaces an existing binding). -/
def mInsert (m : List (String × Expr)) (k : String) (v : Expr) : List (String × Expr) :=
  match m with
  | [] => [(k, v)]
  | p :: rest => if p.1 = k then (k, v) :: rest else p :: mInsert rest k v

/-- `HashMap::contains_key` on the macro table. -/
def mContains (m : List (String × Expr)) (k : String) : Bool :=
  match m with
  | [] => false
  | p :: rest => p.1 = k || mContains rest k

/-- `HashMap::get` on the macro table. -/
def mGet (m : List (String × Expr)) (k : String) : Option Expr :=
  match m with
  | [] => none
  | p :: rest => if p.1 = k then some p.2 else mGet rest k

/-- The `init` flag of a binding operator (parser.rs:95-101). -/
def assignInitFlag (k : TokenType) : Bool :=
  if k = TokenType.ColonEq ∨ k = TokenType.PipeEq then true else false

/-- The `public` flag of a binding operator (parser.rs:102-106). -/
def assignPublicFlag (k : TokenType) : Bool :=
  if k = TokenType.PipeEq then true else false

/-- The `mutable` flag of a binding operator (parser.rs:107-111). -/
def assignMutableFlag (k : TokenType) : Bool :=
  if k = TokenType.DollarEq then true else false

/-- The shapes accepted as destructuring-pattern elements (parser.rs
lines 135-145 and 160-170): `Variable`, `Get`, or `Underscore`. -/
def isTargetShape : Expr → Bool
  | Expr.Variable _ => true
  | Expr.Get _ _ _ => true
  | Expr.Underscore _ => true
  | _ => false

/-- The decorator-application loop of `Parser::function` (parser.rs
631-641): wrap `base` in calls, one per decorator in list order, the
decorator's own arguments appended after the injected argument. -/
def applyDecorators (decorators : List (Expr × List CallArg)) (base : Expr)
    (token : Token) : Expr :=
  decorators.foldl (fun right d =>
    Expr.Call d.1 (CallArg.Positional right :: d.2) token) base

mutual

/-- `Parser::expression`. -/
def expression (f : Nat) (s : PState) : PRes Expr :=
  match f with
  | 0 => (Except.error PErr.fuel, s)
  | f + 1 => assignment f s

/-- `Parser::assignment` up to parsing the left operand; the operator
handling is `assignRest`. -/
def assignment (f : Nat) (s : PState) : PRes Expr :=
  match f with
  | 0 => (Except.error PErr.fuel, s)
  | f + 1 => pbind (orExpr f s) (fun expr s => assignRest f expr s)

/-- The body of `Parser::assignment` after its `or_expr` call (parser.rs
90-261): binding operators, compound assignment, increment/decrement. -/
def assignRest (f : Nat) (expr : Expr) (s : PState) : PRes Expr :=
  match f with
  | 0 => (Except.error PErr.fuel, s)
  | f + 1 =>
    if s.checkCurrent TokenType.Equal ∨ s.checkCurrent TokenType.ColonEq
        ∨ s.checkCurrent TokenType.PipeEq ∨ s.checkCurrent TokenType.DollarEq then
      let init := assignInitFlag s.current.kind
      let public := assignPublicFlag s.current.kind
      let mutable := assignMutableFlag s.current.kind
      let s := s.advance
      pbind (assignment f s) (fun value s =>
        match value with
        | Expr.Assign _ _ _ _ _ _ =>
            (Except.error (PErr.msg "assignment value should not be assignment"), s)
        | _ =>
          match expr with
          | Expr.ObjectLiteral token keys values =>
              if values.all isTargetShape then
                (Except.ok (Expr.Assign init public mutable token
                  (Expr.ObjectLiteral token keys values) value), s)
              else
                (Except.error (PErr.msg "expected variable names or _ for object values"), s)
          | Expr.ListLiteral token values =>
              if values.all isTargetShape then
                (Except.ok (Expr.Assign init public mutable token
                  (Expr.ListLiteral token values) value), s)
              else
                (Except.error (PErr.msg "expected variable names or _ for elements"), s)
          | Expr.Variable name =>
              (Except.ok (Expr.Assign init public mutable name (Expr.Variable name) value), s)
          | Expr.Get inst getValue token =>
              (Except.ok (Expr.Set inst token getValue), s)
          | _ => (Except.error (PErr.msg "invalid assignment target"), s))
    else
      ifMatch s [TokenType.PlusEq, TokenType.MinusEq, TokenType.MulEq,
                 TokenType.DivEq, TokenType.ModEq]
        (fun s =>
          let op := s.previous
          pbind (assignment f s) (fun value s =>
            match expr with
            | Expr.Variable token =>
                (Except.ok (Expr.Assign false false false token (Expr.Variable token)
                  (Expr.Binary (Expr.Variable token) value op)), s)
            | _ => (Except.error (PErr.msg "expected a variable"), s)))
        (fun s =>
          ifMatch s [TokenType.DPlus, TokenType.DMinus]
            (fun s =>
              let op0 := s.previous
              let op : Token :=
                { op0 with kind :=
                    if op0.kind = TokenType.DPlus then TokenType.Plus else TokenType.Minus }
              match expr with
              | Expr.Variable token =>
                  (Except.ok (Expr.Assign false false false token (Expr.Variable token)
                    (Expr.Binary (Expr.Variable token) (Expr.IntegerLiteral op 1) op)), s)
              | _ => (Except.error (PErr.msg "expected a variable"), s))
            (fun s => (Except.ok expr, s)))

/-- `Parser::or_expr`. -/
def orExpr (f : Nat) (s : PState) : PRes Expr :=
  match f with
  | 0 => (Except.error PErr.fuel, s)
  | f + 1 => pbind (andExpr f s) (fun expr s => orLoop f expr s)

/-- The operator loop of `Parser::or_expr`. -/
def orLoop (f : Nat) (expr : Expr) (s : PState) : PRes Expr :=
  match f with
  | 0 => (Except.error PErr.fuel, s)
  | f + 1 =>
    ifMatch s [TokenType.DPipe, TokenType.Or]
      (fun s =>
        let op := s.previous
        pbind (andExpr f s) (fun right s => orLoop f (Expr.Logical expr right op) s))
      (fun s => (Except.ok expr, s))

/-- `Parser::and_expr`. -/
def andExpr (f : Nat) (s : PState) : PRes Expr :=
  match f with
  | 0 => (Except.error PErr.fuel, s)
  | f + 1 => pbind (equality f s) (fun expr s => andLoop f expr s)

/-- The operator loop of `Parser::and_expr`. -/
def andLoop (f : Nat) (expr : Expr) (s : PState) : PRes Expr :=
  match f with
  | 0 => (Except.error PErr.fuel, s)
  | f + 1 =>
    ifMatch s [TokenType.DAmp, TokenType.And]
      (fun s =>
        let op := s.previous
        pbind (equality f s) (fun right s => andLoop f (Expr.Logical expr right op) s))
      (fun s => (Except.ok expr, s))

/-- `Parser::equality`. -/
def equality (f : Nat) (s : PState) : PRes Expr :=
  match f with
  | 0 => (Except.error PErr.fuel, s)
  | f + 1 => pbind (comparison f s) (fun expr s => eqLoop f expr s)

/-- The operator loop of `Parser::equality`. -/
def eqLoop (f : Nat) (expr : Expr) (s : PState) : PRes Expr :=
  match f with
  | 0 => (Except.error PErr.fuel, s)
  | f + 1 =>
    ifMatch s [TokenType.BangEq, TokenType.DEq]
      (fun s =>
        let op := s.previous
        pbind (comparison f s) (fun right s => eqLoop f (Expr.Binary expr right op) s))
      (fun s => (Except.ok expr, s))

/-- `Parser::comparison`. -/
def comparison (f : Nat) (s : PState) : PRes Expr :=
  match f with
  | 0 => (Except.error PErr.fuel, s)
  | f + 1 => pbind (term f s) (fun expr s => compLoop f expr s)

/-- The operator loop of `Parser::comparison`. -/
def compLoop (f : Nat) (expr : Expr) (s : PState) : PRes Expr :=
  match f with
  | 0 => (Except.error PErr.fuel, s)
  | f + 1 =>
    ifMatch s [TokenType.GT, TokenType.GTEq, TokenType.LT, TokenType.LTEq]
      (fun s =>
        let op := s.previous
        pbind (term f s) (fun right s => compLoop f (Expr.Binary expr right op) s))
      (fun s => (Except.ok expr, s))

/-- `Parser::term`. -/
def term (f : Nat) (s : PState) : PRes Expr :=
  match f with
  | 0 => (Except.error PErr.fuel, s)
  | f + 1 => pbind (factor f s) (fun expr s => termLoop f expr s)

/-- The operator loop of `Parser::term`. -/
def termLoop (f : Nat) (expr : Expr) (s : PState) : PRes Expr :=
  match f with
  | 0 => (Except.error PErr.fuel, s)
  | f + 1 =>
    ifMatch s [TokenType.Minus, TokenType.Plus]
      (fun s =>
        let op := s.previous
        pbind (factor f s) (fun right s => termLoop f (Expr.Binary expr right op) s))
      (fun s => (Except.ok expr, s))

/-- `Parser::factor`. -/
def factor (f : Nat) (s : PState) : PRes Expr :=
  match f with
  | 0 => (Except.error PErr.fuel, s)
  | f + 1 => pbind (unary f s) (fun expr s => factorLoop f expr s)

/-- The operator loop of `Parser::factor`. -/
def factorLoop (f : Nat) (expr : Expr) (s : PState) : PRes Expr :=
  match f with
  | 0 => (Except.error PErr.fuel, s)
  | f + 1 =>
    ifMatch s [TokenType.Div, TokenType.Mul, TokenType.Mod]
      (fun s =>
        let op := s.previous
        pbind (unary f s) (fun right s => factorLoop f (Expr.Binary expr right op) s))
      (fun s => (Except.ok expr, s))

/-- `Parser::unary`. -/
def unary (f : Nat) (s : PState) : PRes Expr :=
  match f with
  | 0 => (Except.error PErr.fuel, s)
  | f + 1 =>
    ifMatch s [TokenType.Bang, TokenType.Not, TokenType.Minus]
      (fun s =>
        let op := s.previous
        pbind (unary f s) (fun right s => (Except.ok (Expr.Unary right op), s)))
      (fun s => call f none s)

/-- `Parser::call` up to its `primary` call; the postfix loop is
`callLoop`. -/
def call (f : Nat) (arg : Option Expr) (s : PState) : PRes Expr :=
  match f with
  | 0 => (Except.error PErr.fuel, s)
  | f + 1 => pbind (primary f s) (fun expr s => callLoop f arg expr s)

/-- The postfix loop of `Parser::call` (parser.rs 717-763): call suffixes,
member access, forward pipe, short-hand match. -/
def callLoop (f : Nat) (arg : Option Expr) (expr : Expr) (s : PState) : PRes Expr :=
  match f with
  | 0 => (Except.error PErr.fuel, s)
  | f + 1 =>
    ifMatch s [TokenType.LParen]
      (fun s => pbind (finishCall f expr arg s) (fun expr s => callLoop f arg expr s))
      (fun s =>
        ifMatch s [TokenType.Dot]
          (fun s =>
            let token := s.previous
            pbind (expression f s) (fun value s =>
              callLoop f arg (Expr.Get expr value token) s))
          (fun s =>
            ifMatch s [TokenType.RPipe]
              (fun s => call f (some expr) s)
              (fun s =>
                ifMatch s [TokenType.Question]
                  (fun s =>
                    let token := s.previous
                    pbind (expression f s) (fun trueValue s =>
                      pbind (expect s TokenType.Colon "expected ':'") (fun _ s =>
                        pbind (expression f s) (fun falseValue s =>
                          callLoop f arg
                            (Expr.Match token expr
                              [MatchBranch.mk (Expr.BoolLiteral token true) trueValue,
                               MatchBranch.mk (Expr.Underscore token) falseValue]) s))))
                  (fun s => (Except.ok expr, s)))))

/-- `Parser::finish_call` up to the closing `)`; the `<|` / `<~` tail is
`pipeTail`. -/
def finishCall (f : Nat) (callee : Expr) (arg : Option Expr) (s : PState) : PRes Expr :=
  match f with
  | 0 => (Except.error PErr.fuel, s)
  | f + 1 =>
    let args : List CallArg :=
      match arg with
      | some a => [CallArg.Positional a]
      | none => []
    pbind (if ¬ s.checkCurrent TokenType.RParen then
             pbind (parseOneArg f s) (fun a s => argsLoop f (args ++ [a]) s)
           else (Except.ok args, s)) (fun args s =>
      pbind (expect s TokenType.RParen "expected ')'") (fun _ s =>
        let token := s.previous
        pipeTail f callee args token s))

/-- The tail of `Parser::finish_call` (parser.rs 685-712), first half: the
trailing pipe `<|` appends one more positional argument. -/
def pipeTail (f : Nat) (callee : Expr) (args : List CallArg) (token : Token)
    (s : PState) : PRes Expr :=
  match f with
  | 0 => (Except.error PErr.fuel, s)
  | f + 1 =>
    pbind (ifMatch s [TokenType.LPipe]
             (fun s => pbind (expression f s) (fun e s =>
               (Except.ok (args ++ [CallArg.Positional e]), s)))
             (fun s => (Except.ok args, s))) (fun args s =>
      pipeTail2 f callee args token s)

/-- The tail of `Parser::finish_call`, second half: the callback pipe `<~`
appends a trailing anonymous function, then the `Call` node is built. -/
def pipeTail2 (f : Nat) (callee : Expr) (args : List CallArg) (token : Token)
    (s : PState) : PRes Expr :=
  match f with
  | 0 => (Except.error PErr.fuel, s)
  | f + 1 =>
    ifMatch s [TokenType.LTilde]
      (fun s =>
        pbind (if s.checkCurrent TokenType.LParen then parseParams f s
               else (Except.ok (([] : List Token), (none : Option Token)), s)) (fun pr s =>
          pbind (expression f s) (fun body s =>
            (Except.ok (Expr.Call callee
              (args ++ [CallArg.Positional (Expr.Func false none pr.1 pr.2 body)])
              token), s))))
      (fun s => (Except.ok (Expr.Call callee args token), s))

/-- One call argument: `...expr` is an unpacking argument, anything else
positional (parser.rs 669-673 and duplicates). -/
def parseOneArg (f : Nat) (s : PState) : PRes CallArg :=
  match f with
  | 0 => (Except.error PErr.fuel, s)
  | f + 1 =>
    ifMatch s [TokenType.Ellipsis]
      (fun s => pbind (expression f s) (fun e s => (Except.ok (CallArg.Unpacking e), s)))
      (fun s => pbind (expression f s) (fun e s => (Except.ok (CallArg.Positional e), s)))

/-- The comma-separated argument continuation loop (parser.rs 674-680 and
duplicates). -/
def argsLoop (f : Nat) (args : List CallArg) (s : PState) : PRes (List CallArg) :=
  match f with
  | 0 => (Except.error PErr.fuel, s)
  | f + 1 =>
    ifMatch s [TokenType.Comma]
      (fun s => pbind (parseOneArg f s) (fun a s => argsLoop f (args ++ [a]) s))
      (fun s => (Except.ok args, s))

/-- `Parser::primary` (parser.rs 264-591). -/
def primary (f : Nat) (s : PState) : PRes Expr :=
  match f with
  | 0 => (Except.error PErr.fuel, s)
  | f + 1 =>
    ifMatch s [TokenType.True, TokenType.False]
      (fun s =>
        let token := s.previous
        (Except.ok (Expr.BoolLiteral token
          (if token.kind = TokenType.True then true else false)), s))
      (fun s =>
    ifMatch s [TokenType.Underscore]
      (fun s => (Except.ok (Expr.Underscore s.previous), s))
      (fun s =>
    ifMatch s [TokenType.Null]
      (fun s => (Except.ok (Expr.Null s.previous), s))
      (fun s =>
    ifMatch s [TokenType.Int, TokenType.Float]
      (fun s =>
        let token := s.previous
        if token.kind = TokenType.Int then
          match parseI64 token.value with
          | some value => (Except.ok (Expr.IntegerLiteral token value), s)
          | none => (Except.error (PErr.msg "invalid number"), s)
        else
          if floatLexemeOk token.value then
            (Except.ok (Expr.FloatLiteral token token.value), s)
          else (Except.error (PErr.msg "invalid number"), s))
      (fun s =>
    ifMatch s [TokenType.Str]
      (fun s =>
        let token := s.previous
        (Except.ok (Expr.StringLiteral token token.value), s))
      (fun s =>
    ifMatch s [TokenType.Atom]
      (fun s =>
        let token := s.previous
        (Except.ok (Expr.AtomLiteral token token.value), s))
      (fun s =>
    ifMatch s [TokenType.Id]
      (fun s => (Except.ok (Expr.Variable s.previous), s))
      (fun s =>
    ifMatch s [TokenType.LParen]
      (fun s =>
        pbind (expression f s) (fun expr s =>
          pbind (expect s TokenType.RParen "expected ')'") (fun _ s =>
            (Except.ok (Expr.Group expr), s))))
      (fun s =>
    ifMatch s [TokenType.LBracket]
      (fun s =>
        let token := s.previous
        pbind (listLoop f [] s) (fun values s =>
          pbind (expect s TokenType.RBracket "expected ']'") (fun _ s =>
            (Except.ok (Expr.ListLiteral token values), s))))
      (fun s =>
    ifMatch s [TokenType.LBrace]
      (fun s =>
        let token := s.previous
        if s.checkCurrent TokenType.RBrace then
          (Except.ok (Expr.ObjectLiteral token [] []), s.advance)
        else
          pbind (expression f s) (fun firstExpr s =>
            if s.isEnd then
              (Except.error (PErr.msg "unexpected end of input inside block or object"), s)
            else
              ifMatch s [TokenType.Colon]
                (fun s =>
                  match firstExpr with
                  | Expr.Variable name =>
                      if ¬ (s.previous.kind = TokenType.Colon) then
                        (Except.error (PErr.msg "expected ':'"), s)
                      else
                        pbind (expression f s) (fun v s =>
                          pbind (ifMatch s [TokenType.Comma]
                                   (fun s => objectLoop f [name] [v] s)
                                   (fun s => (Except.ok ([name], [v]), s))) (fun kv s =>
                            pbind (expect s TokenType.RBrace "expected '\x7d'") (fun _ s =>
                              (Except.ok (Expr.ObjectLiteral name kv.1 kv.2), s))))
                  | _ => (Except.error (PErr.msg "expected an identifier"), s))
                (fun s =>
                  pbind (blockLoop f [firstExpr] s) (fun exprs s =>
                    pbind (expect s TokenType.RBrace "expected '\x7d'") (fun _ s =>
                      (Except.ok (Expr.Block s.previous exprs), s))))))
      (fun s =>
    ifMatch s [TokenType.MinusGT]
      (fun s =>
        pbind (if s.checkCurrent TokenType.RParen then parseParams f s
               else (Except.ok (([] : List Token), (none : Option Token)), s)) (fun pr s =>
          pbind (expression f s) (fun body s =>
            (Except.ok (Expr.Func false none pr.1 pr.2 body), s))))
      (fun s =>
    if s.checkCurrent TokenType.Func then function f false [] s
    else
    ifMatch s [TokenType.Public]
      (fun s => function f true [] s)
      (fun s =>
    ifMatch s [TokenType.At]
      (fun s =>
        pbind (expect s TokenType.LBracket "expected '['") (fun _ s =>
          pbind (decoratorsLoop f [] s) (fun decorators s =>
            pbind (expect s TokenType.RBracket "expected ']'") (fun _ s =>
              function f false decorators s))))
      (fun s =>
    ifMatch s [TokenType.Match]
      (fun s =>
        let token := s.previous
        pbind (expression f s) (fun condition s =>
          pbind (expect s TokenType.LBrace "expected '\x7b'") (fun _ s =>
            pbind (matchLoop f [] s) (fun branches s =>
              pbind (expect s TokenType.RBrace "expected '\x7d'") (fun _ s =>
                (Except.ok (Expr.Match token condition branches), s))))))
      (fun s =>
    ifMatch s [TokenType.Try]
      (fun s =>
        let token := s.previous
        pbind (expression f s) (fun result s =>
          pbind (expression f s) (fun errHandling s =>
            pbind (if s.checkCurrent TokenType.Else then
                     pbind (expect s TokenType.Else "expected 'else'") (fun _ s =>
                       pbind (expression f s) (fun e s => (Except.ok (some e), s)))
                   else (Except.ok (none : Option Expr), s)) (fun success s =>
              (Except.ok (Expr.Match token
                (Expr.Call
                  (Expr.Variable (Token.new TokenType.Id "error?"
                    token.position.1 token.position.2))
                  [CallArg.Positional result] token)
                [MatchBranch.mk (Expr.BoolLiteral token true) errHandling,
                 MatchBranch.mk (Expr.BoolLiteral token false)
                   (match success with
                    | some expr => expr
                    | none => Expr.Null token)]), s)))))
      (fun s =>
    ifMatch s [TokenType.Unsafe]
      (fun s =>
        let token := s.previous
        pbind (expression f s) (fun expr s =>
          (Except.ok (Expr.Unsafe token expr), s)))
      (fun s =>
    ifMatch s [TokenType.Dollar]
      (fun s =>
        let token := s.previous
        pbind (expression f s) (fun expr s =>
          (Except.ok (Expr.Shell token expr), s)))
      (fun s =>
    ifMatch s [TokenType.Def]
      (fun s =>
        pbind (expect s TokenType.Id "expected an identifier") (fun _ s =>
          let name := s.previous
          pbind (expression f s) (fun expr s =>
            if mContains s.macros name.value then
              (Except.error (PErr.msg "macro with the same name is already defined"), s)
            else
              (Except.ok (Expr.Null name), { s with macros := mInsert s.macros name.value expr }))))
      (fun s =>
    ifMatch s [TokenType.Redef]
      (fun s =>
        pbind (expect s TokenType.Id "expected an identifier") (fun _ s =>
          let name := s.previous
          pbind (expression f s) (fun expr s =>
            if mContains s.macros name.value then
              (Except.ok (Expr.Null name), { s with macros := mInsert s.macros name.value expr })
            else
              (Except.error (PErr.msg "macro with the same name is not defined"), s))))
      (fun s =>
    ifMatch s [TokenType.Hash]
      (fun s =>
        pbind (expect s TokenType.Id "expected an identifier") (fun _ s =>
          let name := s.previous
          match mGet s.macros name.value with
          | some expr => (Except.ok expr, s)
          | none => (Except.error (PErr.msg "macro undefined"), s)))
      (fun s => (Except.error (PErr.msg "unexpected token"), s)))))))))))))))))))))

/-- The element loop of a list literal (parser.rs 329-336). -/
def listLoop (f : Nat) (values : List Expr) (s : PState) : PRes (List Expr) :=
  match f with
  | 0 => (Except.error PErr.fuel, s)
  | f + 1 =>
    if ¬ s.checkCurrent TokenType.RBracket ∧ ¬ s.isEnd then
      pbind (expression f s) (fun v s =>
        let values := values ++ [v]
        if s.checkCurrent TokenType.RBracket then (Except.ok values, s)
        else
          ifMatch s [TokenType.Comma]
            (fun s => listLoop f values s)
            (fun s => (Except.ok values, s)))
    else (Except.ok values, s)

/-- The entry loop of an object literal after the first comma (parser.rs
374-384). -/
def objectLoop (f : Nat) (keys : List Token) (values : List Expr) (s : PState) :
    PRes (List Token × List Expr) :=
  match f with
  | 0 => (Except.error PErr.fuel, s)
  | f + 1 =>
    if ¬ s.checkCurrent TokenType.RBrace ∧ ¬ s.isEnd then
      pbind (expect s TokenType.Id "expected an identifier") (fun _ s =>
        let keys := keys ++ [s.previous]
        pbind (expect s TokenType.Colon "expected ':'") (fun _ s =>
          pbind (expression f s) (fun v s =>
            let values := values ++ [v]
            if s.checkCurrent TokenType.RBrace then (Except.ok (keys, values), s)
            else
              ifMatch s [TokenType.Comma]
                (fun s => objectLoop f keys values s)
                (fun s => (Except.ok (keys, values), s)))))
    else (Except.ok (keys, values), s)

/-- The expression loop of a block (parser.rs 397-399). -/
def blockLoop (f : Nat) (exprs : List Expr) (s : PState) : PRes (List Expr) :=
  match f with
  | 0 => (Except.error PErr.fuel, s)
  | f + 1 =>
    if ¬ s.checkCurrent TokenType.RBrace ∧ ¬ s.isEnd then
      pbind (expression f s) (fun e s => blockLoop f (exprs ++ [e]) s)
    else (Except.ok exprs, s)

/-- The branch loop of a match expression (parser.rs 474-487). -/
def matchLoop (f : Nat) (branches : List MatchBranch) (s : PState) :
    PRes (List MatchBranch) :=
  match f with
  | 0 => (Except.error PErr.fuel, s)
  | f + 1 =>
    if ¬ s.checkCurrent TokenType.RBrace then
      pbind (expression f s) (fun target s =>
        pbind (expect s TokenType.MinusGT "expected '->'") (fun _ s =>
          pbind (expression f s) (fun body s =>
            let branches := branches ++ [MatchBranch.mk target body]
            ifMatch s [TokenType.Comma]
              (fun s => matchLoop f branches s)
              (fun s => (Except.ok branches, s)))))
    else (Except.ok branches, s)

/-- The decorator list loop (parser.rs 434-463). -/
def decoratorsLoop (f : Nat) (decorators : List (Expr × List CallArg)) (s : PState) :
    PRes (List (Expr × List CallArg)) :=
  match f with
  | 0 => (Except.error PErr.fuel, s)
  | f + 1 =>
    if ¬ s.checkCurrent TokenType.RBracket then
      let decoratorName := Expr.Variable s.current
      let s := s.advance
      pbind (ifMatch s [TokenType.LParen]
               (fun s =>
                 pbind (if ¬ s.checkCurrent TokenType.RParen then
                          pbind (parseOneArg f s) (fun a s => argsLoop f [a] s)
                        else (Except.ok ([] : List CallArg), s)) (fun decArgs s =>
                   pbind (expect s TokenType.RParen "expected ')'") (fun _ s =>
                     (Except.ok decArgs, s))))
               (fun s => (Except.ok ([] : List CallArg), s))) (fun decArgs s =>
        let decorators := decorators ++ [(decoratorName, decArgs)]
        ifMatch s [TokenType.Comma]
          (fun s => decoratorsLoop f decorators s)
          (fun s => (Except.ok decorators, s)))
    else (Except.ok decorators, s)

/-- `Parser::function` (parser.rs 593-655), first statement: a private
function may still be marked `public` by a leading `public` keyword. -/
def function (f : Nat) (public : Bool) (decorators : List (Expr × List CallArg))
    (s : PState) : PRes Expr :=
  match f with
  | 0 => (Except.error PErr.fuel, s)
  | f + 1 =>
    if ¬ public then
      let r := doesMatch s [TokenType.Public]
      funcAfterPublic f r.1 decorators r.2
    else funcAfterPublic f public decorators s

/-- `Parser::function` after the `public` resolution: the `func` keyword
and the optional name. -/
def funcAfterPublic (f : Nat) (public : Bool) (decorators : List (Expr × List CallArg))
    (s : PState) : PRes Expr :=
  match f with
  | 0 => (Except.error PErr.fuel, s)
  | f + 1 =>
    pbind (expect s TokenType.Func "expected 'func'") (fun _ s =>
      if s.checkCurrent TokenType.Id then
        funcAfterName f public decorators (some s.advance.previous) s.advance
      else funcAfterName f public decorators none s)

/-- `Parser::function` after the name: parameters, body, decorator
application and the final node (parser.rs 610-654). -/
def funcAfterName (f : Nat) (public : Bool) (decorators : List (Expr × List CallArg))
    (name : Option Token) (s : PState) : PRes Expr :=
  match f with
  | 0 => (Except.error PErr.fuel, s)
  | f + 1 =>
    pbind (parseParams f s) (fun params s =>
      pbind (expression f s) (fun body s =>
        if decorators.isEmpty then
          (Except.ok (Expr.Func public name params.1 params.2 body), s)
        else
          match name with
          | some name =>
              (Except.ok (Expr.Assign true public false name (Expr.Variable name)
                (applyDecorators decorators
                  (Expr.Func false none params.1 params.2 body) s.previous)), s)
          | none => (Except.error (PErr.msg "expected function name"), s)))

/-- `Parser::parse_params` up to its opening `(`; the parameter loop is
`paramsLoop`. -/
def parseParams (f : Nat) (s : PState) : PRes (List Token × Option Token) :=
  match f with
  | 0 => (Except.error PErr.fuel, s)
  | f + 1 =>
    pbind (expect s TokenType.LParen "expected '('") (fun _ s =>
      pbind (if ¬ s.checkCurrent TokenType.RParen then paramsLoop f [] none s
             else (Except.ok (([] : List Token), (none : Option Token)), s)) (fun pr s =>
        pbind (expect s TokenType.RParen "expected ')'") (fun _ s =>
          (Except.ok pr, s))))

/-- The parameter loop of `Parser::parse_params` (parser.rs 868-895): the
rest-parameter check runs at the start of each iteration. -/
def paramsLoop (f : Nat) (params : List Token) (rest : Option Token) (s : PState) :
    PRes (List Token × Option Token) :=
  match f with
  | 0 => (Except.error PErr.fuel, s)
  | f + 1 =>
    if rest.isSome then
      (Except.error (PErr.msg "required parameter cannot follow rest parameter"), s)
    else
      pbind
        (if s.checkCurrent TokenType.Id then
          pbind (expect s TokenType.Id "expected an identifier") (fun _ s =>
            let param := s.previous
            ifMatch s [TokenType.Plus]
              (fun s => (Except.ok (params, some param), s))
              (fun s => (Except.ok (params ++ [param], rest), s)))
        else if s.checkCurrent TokenType.Underscore then
          pbind (expect s TokenType.Underscore "expected an underscore") (fun _ s =>
            (Except.ok (params ++ [s.previous], rest), s))
        else (Except.ok (params, rest), s))
        (fun pr s =>
          ifMatch s [TokenType.Comma]
            (fun s => paramsLoop f pr.1 pr.2 s)
            (fun s => (Except.ok pr, s)))

end

/-- The token kinds at which `Parser::synchronize` stops: tokens that can
begin a new top-level form (parser.rs 958-965). -/
def restartKind (k : TokenType) : Bool :=
  match k with
  | TokenType.Func | TokenType.Match | TokenType.Def | TokenType.Redef
  | TokenType.Try | TokenType.Unsafe | TokenType.Id => true
  | _ => false

/-- The `while` loop of `Parser::synchronize` (parser.rs 956-968): while
not at end-of-stream, advance and stop on a restart token. -/
def syncLoop (f : Nat) (s : PState) : PState :=
  match f with
  | 0 => s
  | f + 1 =>
    if s.isEnd then s
    else
      let s := s.advance
      if restartKind s.current.kind then s else syncLoop f s

/-- `Parser::synchronize` (parser.rs 949-969): return at once at
end-of-stream, otherwise advance once and enter the loop. -/
def synchronize (f : Nat) (s : PState) : PState :=
  if ¬ s.isEnd then syncLoop f s.advance else s

/-- `Parser::add_error`: record a diagnostic at the current token's
position. -/
def addError (errs : List ParserError) (m : String) (s : PState) : List ParserError :=
  errs ++ [⟨m, s.current.position.1, s.current.position.2⟩]

/-- The main loop of `Parser::parse` (parser.rs 71-80): while not at
end-of-stream, parse one expression; send it on success, otherwise record
the error and synchronize.  `out` is the sequence sent so far.  Fuel
exhaustion (no Rust counterpart) stops the loop without touching `out`. -/
def parseLoop (f : Nat) (s : PState) (out : List Expr) (errs : List ParserError) :
    List Expr × List ParserError × PState :=
  match f with
  | 0 => (out, errs, s)
  | f + 1 =>
    if ¬ s.isEnd then
      match expression f s with
      | (Except.ok e, s1) => parseLoop f s1 (out ++ [e]) errs
      | (Except.error (PErr.msg m), s1) =>
          parseLoop f (synchronize f s1) out (addError errs m s1)
      | (Except.error PErr.fuel, s1) => (out, errs, s1)
    else (out, errs, s)

/-- The state `Parser::new` starts from: the first received token is both
`current` and `previous`, and the macro table is empty. -/
def initState (first : Token) (rest : List Token) : PState := ⟨first, first, rest, []⟩

/-- `Parser::parse` (parser.rs 70-82): run the main loop, then send the
`End` sentinel.  Returns the full sent sequence, the recorded errors, and
the final state. -/
def parse (f : Nat) (s : PState) : List Expr × List ParserError × PState :=
  let r := parseLoop f s [] []
  (r.1 ++ [Expr.End], r.2.1, r.2.2)

/-- Rendering of a successful parse result, empty on error. -/
def okPrint (r : PRes Expr) : String :=
  match r.1 with
  | Except.ok e => e.print
  | Except.error _ => ""

/-- The argument list of a successful parse result that is a call node. -/
def okCallArgs (r : PRes Expr) : List CallArg :=
  match r.1 with
  | Except.ok (Expr.Call _ args _) => args
  | _ => []

/-- An expression that is not the `End` sentinel. -/
def neE (e : Expr) : Prop := e ≠ Expr.End

/-- Macro-table invariant: no stored macro expands to the `End` sentinel.
It holds initially (the table starts empty) and is preserved by every
parse routine, which is what makes the emitted stream `End`-free before
the final sentinel. -/
def macInv (s : PState) : Prop := ∀ p ∈ s.macros, p.2 ≠ Expr.End

/-- Joint invariant of a parse result: the final state keeps the
macro-table invariant and a successful value satisfies `p`. -/
def okInv {α : Type} (p : α → Prop) (r : PRes α) : Prop :=
  macInv r.2 ∧ ∀ v, r.1 = Except.ok v → p v

/-- The simultaneous induction statement: at fuel `f`, every parse routine
preserves the macro-table invariant, and every routine returning an
expression never returns the `End` sentinel (given, for the loop helpers,
that the expression fed into the loop is not `End`). -/
structure Grand (f : Nat) : Prop where
  hexpression : ∀ s, macInv s → okInv neE (expression f s)
  hassignment : ∀ s, macInv s → okInv neE (assignment f s)
  hassignRest : ∀ e s, neE e → macInv s → okInv neE (assignRest f e s)
  horExpr : ∀ s, macInv s → okInv neE (orExpr f s)
  horLoop : ∀ e s, neE e → macInv s → okInv neE (orLoop f e s)
  handExpr : ∀ s, macInv s → okInv neE (andExpr f s)
  handLoop : ∀ e s, neE e → macInv s → okInv neE (andLoop f e s)
  hequality : ∀ s, macInv s → okInv neE (equality f s)
  heqLoop : ∀ e s, neE e → macInv s → okInv neE (eqLoop f e s)
  hcomparison : ∀ s, macInv s → okInv neE (comparison f s)
  hcompLoop : ∀ e s, neE e → macInv s → okInv neE (compLoop f e s)
  hterm : ∀ s, macInv s → okInv neE (term f s)
  htermLoop : ∀ e s, neE e → macInv s → okInv neE (termLoop f e s)
  hfactor : ∀ s, macInv s → okInv neE (factor f s)
  hfactorLoop : ∀ e s, neE e → macInv s → okInv neE (factorLoop f e s)
  hunary : ∀ s, macInv s → okInv neE (unary f s)
  hcall : ∀ a s, macInv s → okInv neE (call f a s)
  hcallLoop : ∀ a e s, neE e → macInv s → okInv neE (callLoop f a e s)
  hfinishCall : ∀ c a s, macInv s → okInv neE (finishCall f c a s)
  hpipeTail : ∀ c args t s, macInv s → okInv neE (pipeTail f c args t s)
  hpipeTail2 : ∀ c args t s, macInv s → okInv neE (pipeTail2 f c args t s)
  hparseOneArg : ∀ s, macInv s → okInv (fun _ => True) (parseOneArg f s)
  hargsLoop : ∀ a s, macInv s → okInv (fun _ => True) (argsLoop f a s)
  hprimary : ∀ s, macInv s → okInv neE (primary f s)
  hlistLoop : ∀ v s, macInv s → okInv (fun _ => True) (listLoop f v s)
  hobjectLoop : ∀ ks vs s, macInv s → okInv (fun _ => True) (objectLoop f ks vs s)
  hblockLoop : ∀ es s, macInv s → okInv (fun _ => True) (blockLoop f es s)
  hmatchLoop : ∀ bs s, macInv s → okInv (fun _ => True) (matchLoop f bs s)
  hdecoratorsLoop : ∀ ds s, macInv s → okInv (fun _ => True) (decoratorsLoop f ds s)
  hfunction : ∀ p ds s, macInv s → okInv neE (function f p ds s)
  hfuncAfterPublic : ∀ p ds s, macInv s → okInv neE (funcAfterPublic f p ds s)
  hfuncAfterName : ∀ p ds n s, macInv s → okInv neE (funcAfterName f p ds n s)
  hparseParams : ∀ s, macInv s → okInv (fun _ => True) (parseParams f s)
  hparamsLoop : ∀ ps r s, macInv s → okInv (fun _ => True) (paramsLoop f ps r s)

/-- Iterated `advance`: the state after `n` token advances. -/
def advanceN (s : PState) : Nat → PState
  | 0 => s
  | n + 1 => advanceN s.advance n

/-- The token stream of a state still contains an EOF token (true of every
state of a run over a lexer-produced, EOF-terminated stream). -/
def hasEOF (s : PState) : Prop :=
  s.current.kind = TokenType.EOF ∨ ∃ t ∈ s.rest, t.kind = TokenType.EOF

/-- Prepend an injected positional argument to a successful `Call`
result. -/
def consArg (a : Expr) : PRes Expr → PRes Expr
  | (Except.ok (Expr.Call c args t), s) =>
      (Except.ok (Expr.Call c (CallArg.Positional a :: args) t), s)
  | r => r

/-- A token on line 1 at column `c`: shorthand for the concrete runs in
the theorems below. -/
def tkn (k : TokenType) (v : String) (c : Nat) : Token := ⟨k, v, (1, c)⟩

/-- Whether a node is an `Assign` (the shape rejected as the right-hand
side of a binding, parser.rs 116-126). -/
def isAssignNode : Expr → Bool
  | Expr.Assign _ _ _ _ _ _ => true
  | _ => false

theorem macInv_of_macros_eq {s t : PState} (h : t.macros = s.macros) (hs : macInv s) :
    macInv t := by
  intro p hp
  exact hs p (h ▸ hp)

theorem advance_macros (s : PState) : s.advance.macros = s.macros := by
  unfold PState.advance
  split
  · rfl
  · split <;> rfl

theorem macInv_advance {s : PState} (h : macInv s) : macInv s.advance :=
  macInv_of_macros_eq (advance_macros s) h

theorem doesMatch_macros (s : PState) (ks : List TokenType) :
    (doesMatch s ks).2.macros = s.macros := by
  induction ks with
  | nil => rfl
  | cons k ks ih =>
    unfold doesMatch
    split
    · exact advance_macros s
    · exact ih

theorem macInv_doesMatch {s : PState} (ks : List TokenType) (h : macInv s) :
    macInv (doesMatch s ks).2 :=
  macInv_of_macros_eq (doesMatch_macros s ks) h

theorem okInv_pure {α : Type} {p : α → Prop} {v : α} {s : PState}
    (h1 : p v) (h2 : macInv s) : okInv p (Except.ok v, s) :=
  ⟨h2, fun w hw => by injection hw with h; exact h ▸ h1⟩

theorem okInv_err {α : Type} {p : α → Prop} {e : PErr} {s : PState}
    (h : macInv s) : okInv p ((Except.error e : Except PErr α), s) :=
  ⟨h, fun _ hw => Except.noConfusion hw⟩

theorem okInv_bind {α β : Type} {p : α → Prop} {q : β → Prop} {r : PRes α}
    {k : α → PState → PRes β}
    (h1 : okInv p r) (h2 : ∀ v s, p v → macInv s → okInv q (k v s)) :
    okInv q (pbind r k) := by
  obtain ⟨hm, hv⟩ := h1
  rcases r with ⟨ev, s⟩
  cases ev with
  | error e => exact ⟨hm, fun _ hw => Except.noConfusion hw⟩
  | ok v => exact h2 v s (hv v rfl) hm

theorem okInv_bind_any {α β : Type} {q : β → Prop} {r : PRes α}
    {k : α → PState → PRes β}
    (h1 : okInv (fun _ => True) r) (h2 : ∀ v s, macInv s → okInv q (k v s)) :
    okInv q (pbind r k) :=
  okInv_bind h1 (fun v s _ hm => h2 v s hm)

theorem okInv_ifMatch {α : Type} {p : α → Prop} {s : PState} {ks : List TokenType}
    {tb eb : PState → PRes α} (h : macInv s)
    (ht : ∀ t, macInv t → okInv p (tb t)) (he : ∀ t, macInv t → okInv p (eb t)) :
    okInv p (ifMatch s ks tb eb) := by
  have hm := macInv_doesMatch ks h
  show okInv p (if (doesMatch s ks).1 = true then tb (doesMatch s ks).2
                else eb (doesMatch s ks).2)
  split
  · exact ht _ hm
  · exact he _ hm

theorem okInv_expect {s : PState} {k : TokenType} {m : String}
    (h : macInv s) : okInv (fun _ => True) (expect s k m) := by
  unfold expect
  split
  · exact okInv_pure trivial (macInv_advance h)
  · exact okInv_err h

theorem mInsert_noEnd {m : List (String × Expr)} {k : String} {v : Expr}
    (hm : ∀ p ∈ m, p.2 ≠ Expr.End) (hv : v ≠ Expr.End) :
    ∀ p ∈ mInsert m k v, p.2 ≠ Expr.End := by
  induction m with
  | nil =>
    intro p hp
    simp only [mInsert, List.mem_singleton] at hp
    subst hp
    exact hv
  | cons q rest ih =>
    intro p hp
    unfold mInsert at hp
    split at hp
    · rcases List.mem_cons.mp hp with h | h
      · subst h; exact hv
      · exact hm p (List.mem_cons_of_mem q h)
    · rcases List.mem_cons.mp hp with h | h
      · subst h; exact hm _ (List.mem_cons_self _ _)
      · exact ih (fun r hr => hm r (List.mem_cons_of_mem q hr)) p h

theorem mGet_noEnd {m : List (String × Expr)} {k : String} {v : Expr}
    (hm : ∀ p ∈ m, p.2 ≠ Expr.End) (hg : mGet m k = some v) : v ≠ Expr.End := by
  induction m with
  | nil => exact Option.noConfusion hg
  | cons q rest ih =>
    unfold mGet at hg
    split at hg
    · injection hg with h; exact h ▸ hm q (List.mem_cons_self q rest)
    · exact ih (fun r hr => hm r (List.mem_cons_of_mem q hr)) hg

theorem grand : ∀ f, Grand f := by
  intro f
  induction f with
  | zero =>
    constructor <;> (intros; exact okInv_err (by assumption))
  | succ f ih =>
    refine ⟨?_, ?_, ?_, ?_, ?_, ?_, ?_, ?_, ?_, ?_, ?_, ?_, ?_, ?_, ?_, ?_, ?_,
            ?_, ?_, ?_, ?_, ?_, ?_, ?_, ?_, ?_, ?_, ?_, ?_, ?_, ?_, ?_, ?_, ?_⟩
    · -- expression
      intro s h
      simp only [expression]
      exact ih.hassignment s h
    · -- assignment
      intro s h
      simp only [assignment]
      exact okInv_bind (ih.horExpr s h) (fun v s1 hv hm => ih.hassignRest v s1 hv hm)
    · -- assignRest
      intro e s he h
      simp only [assignRest]
      split
      · refine okInv_bind (ih.hassignment _ (macInv_advance h)) (fun v s1 hv hm => ?_)
        dsimp only
        split
        · exact okInv_err hm
        · split
          · split
            · exact okInv_pure nofun hm
            · exact okInv_err hm
          · split
            · exact okInv_pure nofun hm
            · exact okInv_err hm
          · exact okInv_pure nofun hm
          · exact okInv_pure nofun hm
          · exact okInv_err hm
      · refine okInv_ifMatch h (fun t ht => ?_) (fun t ht => ?_)
        · refine okInv_bind (ih.hassignment _ ht) (fun v s1 hv hm => ?_)
          dsimp only
          split
          · exact okInv_pure nofun hm
          · exact okInv_err hm
        · refine okInv_ifMatch ht (fun t1 ht1 => ?_) (fun t1 ht1 => okInv_pure he ht1)
          dsimp only
          split
          · exact okInv_pure nofun ht1
          · exact okInv_err ht1
    · -- orExpr
      intro s h
      simp only [orExpr]
      exact okInv_bind (ih.handExpr s h) (fun v s1 hv hm => ih.horLoop v s1 hv hm)
    · -- orLoop
      intro e s he h
      simp only [orLoop]
      refine okInv_ifMatch h (fun t ht => ?_) (fun t ht => okInv_pure he ht)
      exact okInv_bind (ih.handExpr _ ht) (fun r s1 _ hm => ih.horLoop _ _ nofun hm)
    · -- andExpr
      intro s h
      simp only [andExpr]
      exact okInv_bind (ih.hequality s h) (fun v s1 hv hm => ih.handLoop v s1 hv hm)
    · -- andLoop
      intro e s he h
      simp only [andLoop]
      refine okInv_ifMatch h (fun t ht => ?_) (fun t ht => okInv_pure he ht)
      exact okInv_bind (ih.hequality _ ht) (fun r s1 _ hm => ih.handLoop _ _ nofun hm)
    · -- equality
      intro s h
      simp only [equality]
      exact okInv_bind (ih.hcomparison s h) (fun v s1 hv hm => ih.heqLoop v s1 hv hm)
    · -- eqLoop
      intro e s he h
      simp only [eqLoop]
      refine okInv_ifMatch h (fun t ht => ?_) (fun t ht => okInv_pure he ht)
      exact okInv_bind (ih.hcomparison _ ht) (fun r s1 _ hm => ih.heqLoop _ _ nofun hm)
    · -- comparison
      intro s h
      simp only [comparison]
      exact okInv_bind (ih.hterm s h) (fun v s1 hv hm => ih.hcompLoop v s1 hv hm)
    · -- compLoop
      intro e s he h
      simp only [compLoop]
      refine okInv_ifMatch h (fun t ht => ?_) (fun t ht => okInv_pure he ht)
      exact okInv_bind (ih.hterm _ ht) (fun r s1 _ hm => ih.hcompLoop _ _ nofun hm)
    · -- term
      intro s h
      simp only [term]
      exact okInv_bind (ih.hfactor s h) (fun v s1 hv hm => ih.htermLoop v s1 hv hm)
    · -- termLoop
      intro e s he h
      simp only [termLoop]
      refine okInv_ifMatch h (fun t ht => ?_) (fun t ht => okInv_pure he ht)
      exact okInv_bind (ih.hfactor _ ht) (fun r s1 _ hm => ih.htermLoop _ _ nofun hm)
    · -- factor
      intro s h
      simp only [factor]
      exact okInv_bind (ih.hunary s h) (fun v s1 hv hm => ih.hfactorLoop v s1 hv hm)
    · -- factorLoop
      intro e s he h
      simp only [factorLoop]
      refine okInv_ifMatch h (fun t ht => ?_) (fun t ht => okInv_pure he ht)
      exact okInv_bind (ih.hunary _ ht) (fun r s1 _ hm => ih.hfactorLoop _ _ nofun hm)
    · -- unary
      intro s h
      simp only [unary]
      refine okInv_ifMatch h (fun t ht => ?_) (fun t ht => ih.hcall none t ht)
      exact okInv_bind (ih.hunary _ ht) (fun r s1 _ hm => okInv_pure nofun hm)
    · -- call
      intro a s h
      simp only [call]
      exact okInv_bind (ih.hprimary s h) (fun v s1 hv hm => ih.hcallLoop a v s1 hv hm)
    · -- callLoop
      intro a e s he h
      simp only [callLoop]
      refine okInv_ifMatch h (fun t ht => ?_) (fun t ht => ?_)
      · exact okInv_bind (ih.hfinishCall _ _ _ ht) (fun e2 s1 he2 hm1 =>
          ih.hcallLoop _ _ _ he2 hm1)
      · refine okInv_ifMatch ht (fun t1 ht1 => ?_) (fun t1 ht1 => ?_)
        · exact okInv_bind (ih.hexpression _ ht1) (fun v s1 _ hm1 =>
            ih.hcallLoop _ _ _ nofun hm1)
        · refine okInv_ifMatch ht1 (fun t2 ht2 => ?_) (fun t2 ht2 => ?_)
          · exact ih.hcall _ _ ht2
          · refine okInv_ifMatch ht2 (fun t3 ht3 => ?_) (fun t3 ht3 => okInv_pure he ht3)
            exact okInv_bind (ih.hexpression _ ht3) (fun tv s1 _ hm1 =>
              okInv_bind (okInv_expect hm1) (fun _ s2 _ hm2 =>
              okInv_bind (ih.hexpression _ hm2) (fun fv s3 _ hm3 =>
              ih.hcallLoop _ _ _ nofun hm3)))
    · -- finishCall
      intro c a s h
      simp only [finishCall]
      refine okInv_bind_any ?_ (fun args s1 hm1 =>
        okInv_bind (okInv_expect hm1) (fun _ s2 _ hm2 => ih.hpipeTail _ _ _ _ hm2))
      split
      · exact okInv_bind (ih.hparseOneArg _ h) (fun a1 s1 _ hm1 => ih.hargsLoop _ _ hm1)
      · exact okInv_pure trivial h
    · -- pipeTail
      intro c args t s h
      simp only [pipeTail]
      refine okInv_bind_any ?_ (fun args1 s1 hm1 => ih.hpipeTail2 _ _ _ _ hm1)
      refine okInv_ifMatch h (fun t1 ht1 => ?_) (fun t1 ht1 => okInv_pure trivial ht1)
      exact okInv_bind (ih.hexpression _ ht1) (fun e s2 _ hm2 => okInv_pure trivial hm2)
    · -- pipeTail2
      intro c args t s h
      simp only [pipeTail2]
      refine okInv_ifMatch h (fun t1 ht1 => ?_) (fun t1 ht1 => okInv_pure nofun ht1)
      refine okInv_bind_any ?_ (fun pr s2 hm2 =>
        okInv_bind (ih.hexpression _ hm2) (fun b s3 _ hm3 => okInv_pure nofun hm3))
      split
      · exact ih.hparseParams _ ht1
      · exact okInv_pure trivial ht1
    · -- parseOneArg
      intro s h
      simp only [parseOneArg]
      refine okInv_ifMatch h (fun t ht => ?_) (fun t ht => ?_)
      · exact okInv_bind (ih.hexpression _ ht) (fun e s1 _ hm => okInv_pure trivial hm)
      · exact okInv_bind (ih.hexpression _ ht) (fun e s1 _ hm => okInv_pure trivial hm)
    · -- argsLoop
      intro a s h
      simp only [argsLoop]
      refine okInv_ifMatch h (fun t ht => ?_) (fun t ht => okInv_pure trivial ht)
      exact okInv_bind (ih.hparseOneArg _ ht) (fun a1 s1 _ hm => ih.hargsLoop _ _ hm)
    · -- primary
      intro s h
      simp only [primary]
      refine okInv_ifMatch h (fun t ht => okInv_pure nofun ht) (fun t ht => ?_)
      refine okInv_ifMatch ht (fun t1 ht1 => okInv_pure nofun ht1) (fun t1 ht1 => ?_)
      refine okInv_ifMatch ht1 (fun t2 ht2 => okInv_pure nofun ht2) (fun t2 ht2 => ?_)
      refine okInv_ifMatch ht2 (fun t3 ht3 => ?_) (fun t3 ht3 => ?_)
      · -- number
        dsimp only
        split
        · split
          · exact okInv_pure nofun ht3
          · exact okInv_err ht3
        · split
          · exact okInv_pure nofun ht3
          · exact okInv_err ht3
      · refine okInv_ifMatch ht3 (fun t4 ht4 => okInv_pure nofun ht4) (fun t4 ht4 => ?_)
        refine okInv_ifMatch ht4 (fun t5 ht5 => okInv_pure nofun ht5) (fun t5 ht5 => ?_)
        refine okInv_ifMatch ht5 (fun t6 ht6 => okInv_pure nofun ht6) (fun t6 ht6 => ?_)
        refine okInv_ifMatch ht6 (fun t7 ht7 => ?_) (fun t7 ht7 => ?_)
        · -- grouping
          exact okInv_bind (ih.hexpression _ ht7) (fun e s1 _ hm1 =>
            okInv_bind (okInv_expect hm1) (fun _ s2 _ hm2 => okInv_pure nofun hm2))
        · refine okInv_ifMatch ht7 (fun t8 ht8 => ?_) (fun t8 ht8 => ?_)
          · -- list literal
            exact okInv_bind (ih.hlistLoop _ _ ht8) (fun vs s1 _ hm1 =>
              okInv_bind (okInv_expect hm1) (fun _ s2 _ hm2 => okInv_pure nofun hm2))
          · refine okInv_ifMatch ht8 (fun t9 ht9 => ?_) (fun t9 ht9 => ?_)
            · -- object or block
              dsimp only
              split
              · exact okInv_pure nofun (macInv_advance ht9)
              · refine okInv_bind (ih.hexpression _ ht9) (fun fe s1 hfe hm1 => ?_)
                dsimp only
                split
                · exact okInv_err hm1
                · refine okInv_ifMatch hm1 (fun u hu => ?_) (fun u hu => ?_)
                  · -- object
                    dsimp only
                    split
                    · split
                      · exact okInv_err hu
                      · refine okInv_bind (ih.hexpression _ hu) (fun v s2 _ hm2 => ?_)
                        refine okInv_bind (okInv_ifMatch hm2
                            (fun u1 hu1 => ih.hobjectLoop _ _ _ hu1)
                            (fun u1 hu1 => okInv_pure trivial hu1))
                          (fun kv s3 _ hm3 => ?_)
                        exact okInv_bind (okInv_expect hm3) (fun _ s4 _ hm4 =>
                          okInv_pure nofun hm4)
                    · exact okInv_err hu
                  · -- block
                    refine okInv_bind (ih.hblockLoop _ _ hu) (fun es s2 _ hm2 => ?_)
                    exact okInv_bind (okInv_expect hm2) (fun _ s3 _ hm3 =>
                      okInv_pure nofun hm3)
            · refine okInv_ifMatch ht9 (fun u hu => ?_) (fun u hu => ?_)
              · -- short-hand anonymous function
                refine okInv_bind_any ?_ (fun pr s1 hm1 =>
                  okInv_bind (ih.hexpression _ hm1) (fun b s2 _ hm2 =>
                    okInv_pure nofun hm2))
                split
                · exact ih.hparseParams _ hu
                · exact okInv_pure trivial hu
              · dsimp only
                split
                · -- private function
                  exact ih.hfunction _ _ _ hu
                · refine okInv_ifMatch hu (fun u1 hu1 => ih.hfunction _ _ _ hu1)
                    (fun u1 hu1 => ?_)
                  refine okInv_ifMatch hu1 (fun u2 hu2 => ?_) (fun u2 hu2 => ?_)
                  · -- decorated function
                    exact okInv_bind (okInv_expect hu2) (fun _ s1 _ hm1 =>
                      okInv_bind (ih.hdecoratorsLoop _ _ hm1) (fun ds s2 _ hm2 =>
                      okInv_bind (okInv_expect hm2) (fun _ s3 _ hm3 =>
                      ih.hfunction _ _ _ hm3)))
                  · refine okInv_ifMatch hu2 (fun u3 hu3 => ?_) (fun u3 hu3 => ?_)
                    · -- match expression
                      exact okInv_bind (ih.hexpression _ hu3) (fun c s1 _ hm1 =>
                        okInv_bind (okInv_expect hm1) (fun _ s2 _ hm2 =>
                        okInv_bind (ih.hmatchLoop _ _ hm2) (fun bs s3 _ hm3 =>
                        okInv_bind (okInv_expect hm3) (fun _ s4 _ hm4 =>
                        okInv_pure nofun hm4))))
                    · refine okInv_ifMatch hu3 (fun u4 hu4 => ?_) (fun u4 hu4 => ?_)
                      · -- try expression
                        refine okInv_bind (ih.hexpression _ hu4) (fun r1 s1 _ hm1 =>
                          okInv_bind (ih.hexpression _ hm1) (fun r2 s2 _ hm2 => ?_))
                        refine okInv_bind_any ?_ (fun sc s3 hm3 => okInv_pure nofun hm3)
                        split
                        · exact okInv_bind (okInv_expect hm2) (fun _ s3 _ hm3 =>
                            okInv_bind (ih.hexpression _ hm3) (fun e s4 _ hm4 =>
                            okInv_pure trivial hm4))
                        · exact okInv_pure trivial hm2
                      · refine okInv_ifMatch hu4 (fun u5 hu5 => ?_) (fun u5 hu5 => ?_)
                        · -- unsafe expression
                          exact okInv_bind (ih.hexpression _ hu5) (fun e s1 _ hm1 =>
                            okInv_pure nofun hm1)
                        · refine okInv_ifMatch hu5 (fun u6 hu6 => ?_) (fun u6 hu6 => ?_)
                          · -- shell operator
                            exact okInv_bind (ih.hexpression _ hu6) (fun e s1 _ hm1 =>
                              okInv_pure nofun hm1)
                          · refine okInv_ifMatch hu6 (fun u7 hu7 => ?_) (fun u7 hu7 => ?_)
                            · -- macro definition
                              refine okInv_bind (okInv_expect hu7) (fun _ s1 _ hm1 =>
                                okInv_bind (ih.hexpression _ hm1)
                                  (fun e s2 he2 hm2 => ?_))
                              dsimp only
                              split
                              · exact okInv_err hm2
                              · exact okInv_pure nofun
                                  (fun p hp => mInsert_noEnd hm2 he2 p hp)
                            · refine okInv_ifMatch hu7 (fun u8 hu8 => ?_)
                                (fun u8 hu8 => ?_)
                              · -- macro redefinition
                                refine okInv_bind (okInv_expect hu8) (fun _ s1 _ hm1 =>
                                  okInv_bind (ih.hexpression _ hm1)
                                    (fun e s2 he2 hm2 => ?_))
                                dsimp only
                                split
                                · exact okInv_pure nofun
                                    (fun p hp => mInsert_noEnd hm2 he2 p hp)
                                · exact okInv_err hm2
                              · refine okInv_ifMatch hu8 (fun u9 hu9 => ?_)
                                  (fun u9 hu9 => okInv_err hu9)
                                -- macro usage
                                refine okInv_bind (okInv_expect hu9)
                                  (fun _ s1 _ hm1 => ?_)
                                dsimp only
                                split
                                · next e2 heq => exact okInv_pure (mGet_noEnd hm1 heq) hm1
                                · exact okInv_err hm1
    · -- listLoop
      intro v s h
      simp only [listLoop]
      split
      · refine okInv_bind (ih.hexpression _ h) (fun e s1 _ hm1 => ?_)
        dsimp only
        split
        · exact okInv_pure trivial hm1
        · exact okInv_ifMatch hm1 (fun t ht => ih.hlistLoop _ _ ht)
            (fun t ht => okInv_pure trivial ht)
      · exact okInv_pure trivial h
    · -- objectLoop
      intro ks vs s h
      simp only [objectLoop]
      split
      · refine okInv_bind (okInv_expect h) (fun _ s1 _ hm1 =>
          okInv_bind (okInv_expect hm1) (fun _ s2 _ hm2 =>
          okInv_bind (ih.hexpression _ hm2) (fun v s3 _ hm3 => ?_)))
        dsimp only
        split
        · exact okInv_pure trivial hm3
        · exact okInv_ifMatch hm3 (fun t ht => ih.hobjectLoop _ _ _ ht)
            (fun t ht => okInv_pure trivial ht)
      · exact okInv_pure trivial h
    · -- blockLoop
      intro es s h
      simp only [blockLoop]
      split
      · exact okInv_bind (ih.hexpression _ h) (fun e s1 _ hm1 =>
          ih.hblockLoop _ _ hm1)
      · exact okInv_pure trivial h
    · -- matchLoop
      intro bs s h
      simp only [matchLoop]
      split
      · refine okInv_bind (ih.hexpression _ h) (fun tg s1 _ hm1 =>
          okInv_bind (okInv_expect hm1) (fun _ s2 _ hm2 =>
          okInv_bind (ih.hexpression _ hm2) (fun b s3 _ hm3 => ?_)))
        exact okInv_ifMatch hm3 (fun t ht => ih.hmatchLoop _ _ ht)
          (fun t ht => okInv_pure trivial ht)
      · exact okInv_pure trivial h
    · -- decoratorsLoop
      intro ds s h
      simp only [decoratorsLoop]
      split
      · refine okInv_bind_any ?_ (fun das s1 hm1 =>
          okInv_ifMatch hm1 (fun t ht => ih.hdecoratorsLoop _ _ ht)
            (fun t ht => okInv_pure trivial ht))
        refine okInv_ifMatch (macInv_advance h) (fun t ht => ?_)
          (fun t ht => okInv_pure trivial ht)
        refine okInv_bind_any ?_ (fun das s1 hm1 =>
          okInv_bind (okInv_expect hm1) (fun _ s2 _ hm2 => okInv_pure trivial hm2))
        split
        · exact okInv_bind (ih.hparseOneArg _ ht) (fun a1 s1 _ hm1 =>
            ih.hargsLoop _ _ hm1)
        · exact okInv_pure trivial ht
      · exact okInv_pure trivial h
    · -- function
      intro p ds s h
      simp only [function]
      split
      · exact ih.hfuncAfterPublic _ _ _ (macInv_doesMatch _ h)
      · exact ih.hfuncAfterPublic _ _ _ h
    · -- funcAfterPublic
      intro p ds s h
      simp only [funcAfterPublic]
      refine okInv_bind (okInv_expect h) (fun _ s1 _ hm1 => ?_)
      dsimp only
      split
      · exact ih.hfuncAfterName _ _ _ _ (macInv_advance hm1)
      · exact ih.hfuncAfterName _ _ _ _ hm1
    · -- funcAfterName
      intro p ds n s h
      simp only [funcAfterName]
      refine okInv_bind (ih.hparseParams _ h) (fun pr s1 _ hm1 =>
        okInv_bind (ih.hexpression _ hm1) (fun b s2 _ hm2 => ?_))
      dsimp only
      split
      · exact okInv_pure nofun hm2
      · split
        · exact okInv_pure nofun hm2
        · exact okInv_err hm2
    · -- parseParams
      intro s h
      simp only [parseParams]
      refine okInv_bind (okInv_expect h) (fun _ s1 _ hm1 => ?_)
      refine okInv_bind_any ?_ (fun pr s2 hm2 =>
        okInv_bind (okInv_expect hm2) (fun _ s3 _ hm3 => okInv_pure trivial hm3))
      split
      · exact ih.hparamsLoop _ _ _ hm1
      · exact okInv_pure trivial hm1
    · -- paramsLoop
      intro ps r s h
      simp only [paramsLoop]
      split
      · exact okInv_err h
      · refine okInv_bind_any ?_ (fun pr s1 hm1 =>
          okInv_ifMatch hm1 (fun t ht => ih.hparamsLoop _ _ _ ht)
            (fun t ht => okInv_pure trivial ht))
        split
        · exact okInv_bind (okInv_expect h) (fun _ s1 _ hm1 =>
            okInv_ifMatch hm1 (fun t ht => okInv_pure trivial ht)
              (fun t ht => okInv_pure trivial ht))
        · split
          · exact okInv_bind (okInv_expect h) (fun _ s1 _ hm1 =>
              okInv_pure trivial hm1)
          · exact okInv_pure trivial h

theorem macInv_syncLoop {s : PState} (f : Nat) (h : macInv s) : macInv (syncLoop f s) := by
  induction f generalizing s with
  | zero => exact h
  | succ f ih =>
    unfold syncLoop
    split
    · exact h
    · show macInv (if restartKind s.advance.current.kind = true then s.advance
                   else syncLoop f s.advance)
      split
      · exact macInv_advance h
      · exact ih (macInv_advance h)

theorem macInv_synchronize {s : PState} (f : Nat) (h : macInv s) :
    macInv (synchronize f s) := by
  unfold synchronize
  split
  · exact macInv_syncLoop f (macInv_advance h)
  · exact h

/-- The loop of `Parser::parse` only ever sends expressions that are not
the `End` sentinel, by the grand induction. -/
theorem parseLoop_noEnd (f : Nat) (s : PState) (out : List Expr)
    (errs : List ParserError) (hm : macInv s) (ho : Expr.End ∉ out) :
    Expr.End ∉ (parseLoop f s out errs).1 := by
  induction f generalizing s out errs with
  | zero => exact ho
  | succ f ih =>
    unfold parseLoop
    split
    · split
      · next e s1 heq =>
        have hg := (grand f).hexpression s hm
        rw [heq] at hg
        refine ih s1 (out ++ [e]) errs hg.1 ?_
        intro hmem
        rcases List.mem_append.mp hmem with hx | hx
        · exact ho hx
        · exact hg.2 e rfl (List.mem_singleton.mp hx).symm
      · next m s1 heq =>
        have hg := (grand f).hexpression s hm
        rw [heq] at hg
        exact ih _ out _ (macInv_synchronize f hg.1) ho
      · exact ho
    · exact ho

/-- The loop of `Parser::parse` only appends to the already-sent sequence:
expressions are observed downstream in the order they complete. -/
theorem parseLoop_prefix (f : Nat) (s : PState) (out : List Expr)
    (errs : List ParserError) :
    ∃ extra, (parseLoop f s out errs).1 = out ++ extra := by
  induction f generalizing s out errs with
  | zero => exact ⟨[], (List.append_nil out).symm⟩
  | succ f ih =>
    unfold parseLoop
    split
    · split
      · next e s1 _ =>
        obtain ⟨extra, hx⟩ := ih s1 (out ++ [e]) errs
        exact ⟨e :: extra, by rw [hx, List.append_assoc]; rfl⟩
      · next m s1 _ => exact ih _ out _
      · exact ⟨[], (List.append_nil out).symm⟩
    · exact ⟨[], (List.append_nil out).symm⟩

/-- Claim C7: over the output channel, the top-level parse loop sends each
successfully parsed top-level expression immediately upon completion and
in source order (the loop only ever appends to the already-sent sequence,
second conjunct), and after the loop exits it sends the `End` sentinel
exactly once as the last item sent — in every run, whatever the token
input, the full output sequence equals the parsed expressions (none of
which is `End`) followed by a single trailing `End` (first conjunct). -/
theorem c7_stream_end_sentinel :
    (∀ f first rest,
      ∃ sent, (parse f (initState first rest)).1 = sent ++ [Expr.End]
        ∧ Expr.End ∉ sent)
    ∧ (∀ f s out errs, ∃ extra, (parseLoop f s out errs).1 = out ++ extra) := by
  constructor
  · intro f first rest
    refine ⟨(parseLoop f (initState first rest) [] []).1, rfl, ?_⟩
    exact parseLoop_noEnd f _ [] []
      (fun p hp => absurd hp (List.not_mem_nil p)) (List.not_mem_nil _)
  · exact parseLoop_prefix

theorem hasEOF_advance {s : PState} (h : hasEOF s) (hne : s.isEnd = false) :
    hasEOF s.advance := by
  rcases h with h | h
  · rw [PState.isEnd, decide_eq_false_iff_not] at hne
    exact absurd h hne
  · obtain ⟨t, ht, hk⟩ := h
    rcases hrest : s.rest with _ | ⟨a, as⟩
    · rw [hrest] at ht
      exact absurd ht (List.not_mem_nil t)
    · rw [hrest] at ht
      unfold PState.advance
      rw [hne, hrest]
      simp only [Bool.false_eq_true, if_false]
      rcases List.mem_cons.mp ht with hta | hta
      · exact Or.inl (hta ▸ hk)
      · exact Or.inr ⟨t, hta, hk⟩

theorem rest_ne_nil_of_hasEOF {s : PState} (h : hasEOF s) (hne : s.isEnd = false) :
    s.rest ≠ [] := by
  rcases h with h | h
  · rw [PState.isEnd, decide_eq_false_iff_not] at hne
    exact absurd h hne
  · obtain ⟨t, ht, _⟩ := h
    intro hnil
    rw [hnil] at ht
    exact absurd ht (List.not_mem_nil t)

theorem advance_rest_length {s : PState} (hne : s.isEnd = false) (h : s.rest ≠ []) :
    s.advance.rest.length + 1 = s.rest.length := by
  rcases hrest : s.rest with _ | ⟨a, as⟩
  · exact absurd hrest h
  · unfold PState.advance
    rw [hne, hrest]
    simp

/-- Characterization of the `synchronize` loop: it stops at the first
token, reached by one or more advances, whose kind is in the restart set,
or at end-of-stream; every token reached strictly earlier (the loop checks
each of them) is neither. -/
theorem syncLoop_spec :
    ∀ f s, hasEOF s → s.rest.length + 1 ≤ f →
      ∃ n, syncLoop f s = advanceN s n
        ∧ (restartKind (advanceN s n).current.kind = true ∨ (advanceN s n).isEnd = true)
        ∧ (∀ m, m < n → (advanceN s m).isEnd = false)
        ∧ (∀ m, 1 ≤ m → m < n → restartKind (advanceN s m).current.kind = false) := by
  intro f
  induction f with
  | zero =>
    intro s _ hlen
    exact absurd hlen (by omega)
  | succ f ih =>
    intro s hE hlen
    unfold syncLoop
    by_cases hend : s.isEnd = true
    · rw [if_pos hend]
      exact ⟨0, rfl, Or.inr hend, fun m hm => absurd hm (by omega),
        fun m hm1 hm2 => absurd hm2 (by omega)⟩
    · rw [if_neg hend]
      have hend' : s.isEnd = false := by
        cases hb : s.isEnd
        · rfl
        · exact absurd hb hend
      show ∃ n, (if restartKind s.advance.current.kind = true then s.advance
                 else syncLoop f s.advance) = advanceN s n ∧ _
      by_cases hr : restartKind s.advance.current.kind = true
      · rw [if_pos hr]
        refine ⟨1, rfl, Or.inl hr, ?_, fun m hm1 hm2 => absurd hm2 (by omega)⟩
        intro m hm
        interval_cases m
        exact hend'
      · rw [if_neg hr]
        have hr' : restartKind s.advance.current.kind = false := by
          cases hb : restartKind s.advance.current.kind
          · rfl
          · exact absurd hb hr
        have hE' := hasEOF_advance hE hend'
        have hlen' : s.advance.rest.length + 1 ≤ f := by
          have h1 := advance_rest_length hend' (rest_ne_nil_of_hasEOF hE hend')
          omega
        obtain ⟨n', h1, h2, h3, h4⟩ := ih s.advance hE' hlen'
        refine ⟨n' + 1, h1, h2, ?_, ?_⟩
        · intro m hm
          match m with
          | 0 => exact hend'
          | k + 1 => exact h3 k (by omega)
        · intro m hm1 hm2
          match m with
          | 1 => exact hr'
          | k + 2 => exact h4 (k + 1) (by omega) (by omega)

/-- Claim C8 counterexample: started on a `+` token whose very next token
is `func` — a token of the restart set — `synchronize` does not stop
there: it runs on to end-of-stream, skipping past a restart-set token that
lies strictly between its starting and stopping positions (the token
reached by the first advance is never examined). -/
theorem c8_synchronize_counterexample :
    restartKind TokenType.Func = true
    ∧ (PState.mk ⟨TokenType.Plus, "+", (1, 1)⟩ ⟨TokenType.Plus, "+", (1, 1)⟩
         [⟨TokenType.Func, "func", (1, 3)⟩, ⟨TokenType.EOF, "", (1, 8)⟩] []).rest.map Token.kind
        = [TokenType.Func, TokenType.EOF]
    ∧ (synchronize 10 (PState.mk ⟨TokenType.Plus, "+", (1, 1)⟩ ⟨TokenType.Plus, "+", (1, 1)⟩
         [⟨TokenType.Func, "func", (1, 3)⟩, ⟨TokenType.EOF, "", (1, 8)⟩] [])).current.kind
        = TokenType.EOF :=
  ⟨rfl, rfl, rfl⟩

/-- Claim C8 (amended): when already at end-of-stream, `synchronize`
returns without advancing.  Otherwise it advances at least once and stops
at the first token — reached by the *second* or a later advance — whose
kind is in the restart set, or at end-of-stream; the token reached by the
first advance is skipped without being examined, so a restart-set token at
that position does not stop the scan. -/
theorem c8_synchronize_amended :
    (∀ f s, s.isEnd = true → synchronize f s = s)
    ∧ (∀ f s, s.isEnd = false → hasEOF s → s.rest.length + 1 ≤ f →
        ∃ n, 1 ≤ n ∧ synchronize f s = advanceN s n
          ∧ (restartKind (advanceN s n).current.kind = true ∨ (advanceN s n).isEnd = true)
          ∧ (∀ m, m < n → (advanceN s m).isEnd = false)
          ∧ (∀ m, 2 ≤ m → m < n → restartKind (advanceN s m).current.kind = false)) := by
  constructor
  · intro f s h
    unfold synchronize
    rw [h]
    simp
  · intro f s hend hE hlen
    have hE' := hasEOF_advance hE hend
    have hlen' : s.advance.rest.length + 1 ≤ f := by
      have h1 := advance_rest_length hend (rest_ne_nil_of_hasEOF hE hend)
      omega
    obtain ⟨n', h1, h2, h3, h4⟩ := syncLoop_spec f s.advance hE' hlen'
    have hsync : synchronize f s = syncLoop f s.advance := by
      unfold synchronize
      rw [hend]
      simp
    refine ⟨n' + 1, by omega, by rw [hsync, h1]; rfl, h2, ?_, ?_⟩
    · intro m hm
      match m with
      | 0 => exact hend
      | k + 1 => exact h3 k (by omega)
    · intro m hm1 hm2
      match m with
      | k + 1 => exact h4 k (by omega) (by omega)

/-- Witness for the amended C8: from `+` with following tokens
`, a <EOF>`, `synchronize` advances twice and stops on the identifier. -/
theorem c8_synchronize_amended_witness :
    ((PState.mk ⟨TokenType.Plus, "+", (1, 1)⟩ ⟨TokenType.Plus, "+", (1, 1)⟩
        [⟨TokenType.Comma, ",", (1, 2)⟩, ⟨TokenType.Id, "a", (1, 3)⟩,
         ⟨TokenType.EOF, "", (1, 4)⟩] []).isEnd = false)
    ∧ (∃ n, 1 ≤ n
        ∧ synchronize 10 (PState.mk ⟨TokenType.Plus, "+", (1, 1)⟩
            ⟨TokenType.Plus, "+", (1, 1)⟩
            [⟨TokenType.Comma, ",", (1, 2)⟩, ⟨TokenType.Id, "a", (1, 3)⟩,
             ⟨TokenType.EOF, "", (1, 4)⟩] [])
          = advanceN (PState.mk ⟨TokenType.Plus, "+", (1, 1)⟩
              ⟨TokenType.Plus, "+", (1, 1)⟩
              [⟨TokenType.Comma, ",", (1, 2)⟩, ⟨TokenType.Id, "a", (1, 3)⟩,
               ⟨TokenType.EOF, "", (1, 4)⟩] []) n
        ∧ (restartKind (advanceN (PState.mk ⟨TokenType.Plus, "+", (1, 1)⟩
              ⟨TokenType.Plus, "+", (1, 1)⟩
              [⟨TokenType.Comma, ",", (1, 2)⟩, ⟨TokenType.Id, "a", (1, 3)⟩,
               ⟨TokenType.EOF, "", (1, 4)⟩] []) n).current.kind = true
            ∨ (advanceN (PState.mk ⟨TokenType.Plus, "+", (1, 1)⟩
                ⟨TokenType.Plus, "+", (1, 1)⟩
                [⟨TokenType.Comma, ",", (1, 2)⟩, ⟨TokenType.Id, "a", (1, 3)⟩,
                 ⟨TokenType.EOF, "", (1, 4)⟩] []) n).isEnd = true)
        ∧ (∀ m, m < n → (advanceN (PState.mk ⟨TokenType.Plus, "+", (1, 1)⟩
              ⟨TokenType.Plus, "+", (1, 1)⟩
              [⟨TokenType.Comma, ",", (1, 2)⟩, ⟨TokenType.Id, "a", (1, 3)⟩,
               ⟨TokenType.EOF, "", (1, 4)⟩] []) m).isEnd = false)
        ∧ (∀ m, 2 ≤ m → m < n → restartKind (advanceN (PState.mk ⟨TokenType.Plus, "+", (1, 1)⟩
              ⟨TokenType.Plus, "+", (1, 1)⟩
              [⟨TokenType.Comma, ",", (1, 2)⟩, ⟨TokenType.Id, "a", (1, 3)⟩,
               ⟨TokenType.EOF, "", (1, 4)⟩] []) m).current.kind = false)) :=
  ⟨rfl, c8_synchronize_amended.2 10 _ rfl
    (Or.inr ⟨⟨TokenType.EOF, "", (1, 4)⟩, by simp, rfl⟩) (by simp)⟩

/-- The argument continuation loop is invariant under a pre-existing
prefix of the accumulator: the tokens consumed and the error behaviour do
not depend on the arguments already collected. -/
theorem argsLoop_prefix (f : Nat) (pre : List CallArg) :
    ∀ acc s, argsLoop f (pre ++ acc) s
      = (Except.map (fun l => pre ++ l) (argsLoop f acc s).1, (argsLoop f acc s).2) := by
  induction f with
  | zero => intro acc s; rfl
  | succ f ih =>
    intro acc s
    simp only [argsLoop, ifMatch]
    split
    · rcases hpo : parseOneArg f (doesMatch s [TokenType.Comma]).2 with ⟨e | a, u⟩
      · simp only [pbind, hpo, Except.map]
      · simp only [pbind, hpo]
        rw [List.append_assoc pre acc [a]]
        exact ih (acc ++ [a]) u
    · rfl

theorem pipeTail2_cons (f : Nat) (c a : Expr) :
    ∀ args t s, pipeTail2 f c (CallArg.Positional a :: args) t s
      = consArg a (pipeTail2 f c args t s) := by
  match f with
  | 0 => intro args t s; rfl
  | f + 1 =>
    intro args t s
    simp only [pipeTail2, ifMatch]
    split
    · rcases hpr : (if (doesMatch s [TokenType.LTilde]).2.checkCurrent TokenType.LParen = true
          then parseParams f (doesMatch s [TokenType.LTilde]).2
          else (Except.ok (([] : List Token), (none : Option Token)),
            (doesMatch s [TokenType.LTilde]).2)) with ⟨e | pr, u⟩
      · simp only [pbind, hpr, consArg]
      · simp only [pbind, hpr]
        rcases hb : expression f u with ⟨e2 | b, w⟩
        · simp only [pbind, hb, consArg]
        · simp only [pbind, hb, consArg, List.cons_append]
    · simp only [consArg]

theorem pipeTail_cons (f : Nat) (c a : Expr) :
    ∀ args t s, pipeTail f c (CallArg.Positional a :: args) t s
      = consArg a (pipeTail f c args t s) := by
  match f with
  | 0 => intro args t s; rfl
  | f + 1 =>
    intro args t s
    simp only [pipeTail, ifMatch]
    split
    · rcases he : expression f (doesMatch s [TokenType.LPipe]).2 with ⟨e | v, u⟩
      · simp only [pbind, he, consArg]
      · simp only [pbind, he, List.cons_append]
        exact pipeTail2_cons f c a (args ++ [CallArg.Positional v]) t u
    · simp only [pbind]
      exact pipeTail2_cons f c a args t (doesMatch s [TokenType.LPipe]).2

/-- The argument continuation loop, with one more argument already in the
accumulator. -/
theorem argsLoop_cons (f : Nat) (a0 : CallArg) (acc : List CallArg) (s : PState) :
    argsLoop f (a0 :: acc) s
      = (Except.map (fun l => a0 :: l) (argsLoop f acc s).1, (argsLoop f acc s).2) := by
  have h := argsLoop_prefix f [a0] acc s
  rw [List.singleton_append] at h
  exact h

/-- `finish_call` with an injected pipe operand produces exactly the call
it would otherwise produce, with the operand prepended as the first
positional argument. -/
theorem finishCall_someArg (f : Nat) (c a : Expr) (s : PState) :
    finishCall f c (some a) s = consArg a (finishCall f c none s) := by
  match f with
  | 0 => rfl
  | f + 1 =>
    simp only [finishCall]
    split
    · rcases hpo : parseOneArg f s with ⟨e | x, u⟩
      · simp only [pbind, hpo, consArg]
      · simp only [pbind, hpo, List.nil_append, List.singleton_append]
        rw [argsLoop_cons f (CallArg.Positional a) [x] u]
        rcases hal : argsLoop f [x] u with ⟨e2 | l, w⟩
        · simp only [pbind, hal, Except.map, consArg]
        · simp only [pbind, hal, Except.map]
          unfold expect
          by_cases hw : w.checkCurrent TokenType.RParen = true
          · rw [if_pos hw]
            simp only [pbind]
            exact pipeTail_cons f c a l w.advance.previous w.advance
          · rw [if_neg hw]
            simp only [pbind, consArg]
    · simp only [pbind]
      unfold expect
      by_cases hw : s.checkCurrent TokenType.RParen = true
      · rw [if_pos hw]
        simp only [pbind]
        exact pipeTail_cons f c a [] s.advance.previous s.advance
      · rw [if_neg hw]
        simp only [pbind, consArg]

/-- Claim C4 counterexample: in `x |> f(1)(2)` the pipe operand `x` is
injected not only into the call following `|>` but also into the chained
second call — the outer call's arguments are `[x, 2]`, not the `[2]` the
claim's "injected into that following call only" predicts, because the
postfix loop of the recursive invocation passes the operand to every
`finish_call` it performs. -/
theorem c4_pipe_injection_counterexample :
    okCallArgs (expression 100 (initState (tkn TokenType.Id "x" 1)
        [tkn TokenType.RPipe "|>" 3, tkn TokenType.Id "f" 6,
         tkn TokenType.LParen "(" 7, tkn TokenType.Int "1" 8,
         tkn TokenType.RParen ")" 9, tkn TokenType.LParen "(" 10,
         tkn TokenType.Int "2" 11, tkn TokenType.RParen ")" 12,
         tkn TokenType.EOF "" 13]))
      = [CallArg.Positional (Expr.Variable (tkn TokenType.Id "x" 1)),
         CallArg.Positional (Expr.IntegerLiteral (tkn TokenType.Int "2" 11) 2)]
    ∧ [CallArg.Positional (Expr.Variable (tkn TokenType.Id "x" 1)),
       CallArg.Positional (Expr.IntegerLiteral (tkn TokenType.Int "2" 11) 2)]
      ≠ [CallArg.Positional (Expr.IntegerLiteral (tkn TokenType.Int "2" 11) 2)] :=
  ⟨rfl, by simp⟩

/-- Claim C4 (amended): for `e |> f(a1, ..., an)` the already-parsed left
operand is injected as the implicit first positional argument of the call
following `|>` — the call's argument list is `e` followed by `a1..an` in
order (first conjunct), and the postfix loop terminates by handing the
parsed operand to the recursive call-parsing invocation (second conjunct).
The operand is, however, not injected into that following call only: the
recursive invocation keeps injecting it into every further direct call
suffix of the same postfix chain.  Third conjunct: `a |> g(b)` yields the
call `(g a b)`. -/
theorem c4_pipe_injection_amended :
    (∀ f c a s, finishCall f c (some a) s = consArg a (finishCall f c none s))
    ∧ (∀ f a e s, s.current.kind = TokenType.RPipe →
        callLoop (f + 1) a e s = call f (some e) s.advance)
    ∧ okCallArgs (expression 100 (initState (tkn TokenType.Id "a" 1)
        [tkn TokenType.RPipe "|>" 3, tkn TokenType.Id "g" 6,
         tkn TokenType.LParen "(" 7, tkn TokenType.Id "b" 8,
         tkn TokenType.RParen ")" 9, tkn TokenType.EOF "" 10]))
      = [CallArg.Positional (Expr.Variable (tkn TokenType.Id "a" 1)),
         CallArg.Positional (Expr.Variable (tkn TokenType.Id "b" 8))] := by
  refine ⟨finishCall_someArg, ?_, rfl⟩
  intro f a e s h
  simp [callLoop, ifMatch, doesMatch, PState.checkCurrent, h]

/-- Witness for the amended C4: a concrete postfix-loop state whose
current token is `|>` hands the parsed operand to the recursive call
invocation. -/
theorem c4_pipe_injection_amended_witness :
    (PState.mk (tkn TokenType.RPipe "|>" 3) (tkn TokenType.Id "x" 1)
        [tkn TokenType.Id "f" 6, tkn TokenType.EOF "" 7] []).current.kind
      = TokenType.RPipe
    ∧ callLoop 6 none (Expr.Variable (tkn TokenType.Id "x" 1))
        (PState.mk (tkn TokenType.RPipe "|>" 3) (tkn TokenType.Id "x" 1)
          [tkn TokenType.Id "f" 6, tkn TokenType.EOF "" 7] [])
      = call 5 (some (Expr.Variable (tkn TokenType.Id "x" 1)))
        (PState.mk (tkn TokenType.RPipe "|>" 3) (tkn TokenType.Id "x" 1)
          [tkn TokenType.Id "f" 6, tkn TokenType.EOF "" 7] []).advance :=
  ⟨rfl, c4_pipe_injection_amended.2.1 5 none (Expr.Variable (tkn TokenType.Id "x" 1)) _ rfl⟩

/-- The binding-operator case of `assignment` on a bare `Variable`
left-hand side: the node is an `Assign` whose flags are computed from the
operator kind. -/
theorem assignRest_variable_binding (f : Nat) (n : Token) (s : PState) (v : Expr)
    (s2 : PState)
    (hc : s.checkCurrent TokenType.Equal = true ∨ s.checkCurrent TokenType.ColonEq = true
      ∨ s.checkCurrent TokenType.PipeEq = true ∨ s.checkCurrent TokenType.DollarEq = true)
    (ha : assignment f s.advance = (Except.ok v, s2))
    (hv : isAssignNode v = false) :
    assignRest (f + 1) (Expr.Variable n) s
      = (Except.ok (Expr.Assign (assignInitFlag s.current.kind)
          (assignPublicFlag s.current.kind) (assignMutableFlag s.current.kind)
          n (Expr.Variable n) v), s2) := by
  simp only [assignRest]
  rw [if_pos hc, ha]
  cases v <;> simp_all [pbind, isAssignNode]

/-- The binding-operator case of `assignment` on a `ListLiteral` pattern
whose elements are all of target shape: an `Assign` node is produced. -/
theorem assignRest_list_ok (f : Nat) (tok : Token) (vals : List Expr) (s : PState)
    (v : Expr) (s2 : PState)
    (hc : s.checkCurrent TokenType.Equal = true ∨ s.checkCurrent TokenType.ColonEq = true
      ∨ s.checkCurrent TokenType.PipeEq = true ∨ s.checkCurrent TokenType.DollarEq = true)
    (ha : assignment f s.advance = (Except.ok v, s2))
    (hv : isAssignNode v = false)
    (hall : vals.all isTargetShape = true) :
    assignRest (f + 1) (Expr.ListLiteral tok vals) s
      = (Except.ok (Expr.Assign (assignInitFlag s.current.kind)
          (assignPublicFlag s.current.kind) (assignMutableFlag s.current.kind)
          tok (Expr.ListLiteral tok vals) v), s2) := by
  simp only [assignRest]
  rw [if_pos hc, ha]
  cases v <;> simp_all [pbind, isAssignNode]

/-- The binding-operator case of `assignment` on a `ListLiteral` pattern
with an element that is not of target shape: the fixed diagnostic is
returned and no `Assign` node is produced. -/
theorem assignRest_list_err (f : Nat) (tok : Token) (vals : List Expr) (s : PState)
    (v : Expr) (s2 : PState)
    (hc : s.checkCurrent TokenType.Equal = true ∨ s.checkCurrent TokenType.ColonEq = true
      ∨ s.checkCurrent TokenType.PipeEq = true ∨ s.checkCurrent TokenType.DollarEq = true)
    (ha : assignment f s.advance = (Except.ok v, s2))
    (hv : isAssignNode v = false)
    (hall : vals.all isTargetShape = false) :
    assignRest (f + 1) (Expr.ListLiteral tok vals) s
      = (Except.error (PErr.msg "expected variable names or _ for elements"), s2) := by
  simp only [assignRest]
  rw [if_pos hc, ha]
  cases v <;> simp_all [pbind, isAssignNode]

/-- The binding-operator case of `assignment` on an `ObjectLiteral`
pattern whose values are all of target shape. -/
theorem assignRest_object_ok (f : Nat) (tok : Token) (ks : List Token)
    (vals : List Expr) (s : PState) (v : Expr) (s2 : PState)
    (hc : s.checkCurrent TokenType.Equal = true ∨ s.checkCurrent TokenType.ColonEq = true
      ∨ s.checkCurrent TokenType.PipeEq = true ∨ s.checkCurrent TokenType.DollarEq = true)
    (ha : assignment f s.advance = (Except.ok v, s2))
    (hv : isAssignNode v = false)
    (hall : vals.all isTargetShape = true) :
    assignRest (f + 1) (Expr.ObjectLiteral tok ks vals) s
      = (Except.ok (Expr.Assign (assignInitFlag s.current.kind)
          (assignPublicFlag s.current.kind) (assignMutableFlag s.current.kind)
          tok (Expr.ObjectLiteral tok ks vals) v), s2) := by
  simp only [assignRest]
  rw [if_pos hc, ha]
  cases v <;> simp_all [pbind, isAssignNode]

/-- The binding-operator case of `assignment` on an `ObjectLiteral`
pattern with a value that is not of target shape. -/
theorem assignRest_object_err (f : Nat) (tok : Token) (ks : List Token)
    (vals : List Expr) (s : PState) (v : Expr) (s2 : PState)
    (hc : s.checkCurrent TokenType.Equal = true ∨ s.checkCurrent TokenType.ColonEq = true
      ∨ s.checkCurrent TokenType.PipeEq = true ∨ s.checkCurrent TokenType.DollarEq = true)
    (ha : assignment f s.advance = (Except.ok v, s2))
    (hv : isAssignNode v = false)
    (hall : vals.all isTargetShape = false) :
    assignRest (f + 1) (Expr.ObjectLiteral tok ks vals) s
      = (Except.error (PErr.msg "expected variable names or _ for object values"), s2) := by
  simp only [assignRest]
  rw [if_pos hc, ha]
  cases v <;> simp_all [pbind, isAssignNode]

/-- Claim C1: for an assignment whose left-hand side is a bare `Variable`,
the binding operator determines the `Assign` node's flags exactly —
`:=` gives `(init, public, mutable) = (T,F,F)`, `|=` gives `(T,T,F)`,
`=` gives `(F,F,F)`, `$=` gives `(F,F,T)` (first four conjuncts) — and
the pretty-printer renders an `Assign` with the flag letters present only
when true, in the order P, I, M (fifth conjunct), so `x := 1`, `x |= 1`
and `x = 1` print as `(assignI x 1)`, `(assignPI x 1)` and
`(assign x 1)` (last three conjuncts). -/
theorem c1_assign_flags_and_print :
    (∀ f n s v s2, s.current.kind = TokenType.ColonEq →
      assignment f s.advance = (Except.ok v, s2) → isAssignNode v = false →
      assignRest (f + 1) (Expr.Variable n) s
        = (Except.ok (Expr.Assign true false false n (Expr.Variable n) v), s2))
    ∧ (∀ f n s v s2, s.current.kind = TokenType.PipeEq →
      assignment f s.advance = (Except.ok v, s2) → isAssignNode v = false →
      assignRest (f + 1) (Expr.Variable n) s
        = (Except.ok (Expr.Assign true true false n (Expr.Variable n) v), s2))
    ∧ (∀ f n s v s2, s.current.kind = TokenType.Equal →
      assignment f s.advance = (Except.ok v, s2) → isAssignNode v = false →
      assignRest (f + 1) (Expr.Variable n) s
        = (Except.ok (Expr.Assign false false false n (Expr.Variable n) v), s2))
    ∧ (∀ f n s v s2, s.current.kind = TokenType.DollarEq →
      assignment f s.advance = (Except.ok v, s2) → isAssignNode v = false →
      assignRest (f + 1) (Expr.Variable n) s
        = (Except.ok (Expr.Assign false false true n (Expr.Variable n) v), s2))
    ∧ (∀ i p m t l r, (Expr.Assign i p m t l r).print
        = "(assign" ++ (if p then "P" else "") ++ (if i then "I" else "")
          ++ (if m then "M" else "") ++ " " ++ l.print ++ " " ++ r.print ++ ")")
    ∧ okPrint (expression 50 (initState (tkn TokenType.Id "x" 1)
        [tkn TokenType.ColonEq ":=" 3, tkn TokenType.Int "1" 6, tkn TokenType.EOF "" 7]))
      = "(assignI x 1)"
    ∧ okPrint (expression 50 (initState (tkn TokenType.Id "x" 1)
        [tkn TokenType.PipeEq "|=" 3, tkn TokenType.Int "1" 6, tkn TokenType.EOF "" 7]))
      = "(assignPI x 1)"
    ∧ okPrint (expression 50 (initState (tkn TokenType.Id "x" 1)
        [tkn TokenType.Equal "=" 3, tkn TokenType.Int "1" 6, tkn TokenType.EOF "" 7]))
      = "(assign x 1)" := by
  refine ⟨?_, ?_, ?_, ?_, fun i p m t l r => rfl, rfl, rfl, rfl⟩ <;>
    (intro f n s v s2 hk ha hv
     have h := assignRest_variable_binding f n s v s2 ?_ ha hv
     · rw [hk] at h
       simpa [assignInitFlag, assignPublicFlag, assignMutableFlag] using h
     · simp [PState.checkCurrent, hk])

/-- Witness for C1: parsing the right-hand side `1` after `x :=` and
feeding the variable `x` into the binding case yields the
`(init, public, mutable) = (T,F,F)` node. -/
theorem c1_assign_flags_and_print_witness :
    (PState.mk (tkn TokenType.ColonEq ":=" 3) (tkn TokenType.Id "x" 1)
        [tkn TokenType.Int "1" 6, tkn TokenType.EOF "" 7] []).current.kind
      = TokenType.ColonEq
    ∧ assignRest 31 (Expr.Variable (tkn TokenType.Id "x" 1))
        (PState.mk (tkn TokenType.ColonEq ":=" 3) (tkn TokenType.Id "x" 1)
          [tkn TokenType.Int "1" 6, tkn TokenType.EOF "" 7] [])
      = (Except.ok (Expr.Assign true false false (tkn TokenType.Id "x" 1)
          (Expr.Variable (tkn TokenType.Id "x" 1))
          (Expr.IntegerLiteral (tkn TokenType.Int "1" 6) 1)),
         PState.mk (tkn TokenType.EOF "" 7) (tkn TokenType.Int "1" 6) [] []) :=
  ⟨rfl, c1_assign_flags_and_print.1 30 (tkn TokenType.Id "x" 1)
    (PState.mk (tkn TokenType.ColonEq ":=" 3) (tkn TokenType.Id "x" 1)
      [tkn TokenType.Int "1" 6, tkn TokenType.EOF "" 7] [])
    (Expr.IntegerLiteral (tkn TokenType.Int "1" 6) 1)
    (PState.mk (tkn TokenType.EOF "" 7) (tkn TokenType.Int "1" 6) [] [])
    rfl rfl rfl⟩

/-- Claim C3: when the left-hand side of a binding operator is a
`ListLiteral` (respectively `ObjectLiteral`), an `Assign` node is produced
iff every element (respectively every value) is a `Variable`, `Get` or
`Underscore`; otherwise parsing fails with the fixed diagnostic
"expected variable names or _ for elements" (lists) /
"expected variable names or _ for object values" (objects) and no `Assign`
node is emitted.  The concrete conjuncts: `[name, _] := ["Nobu", 16]`
parses and prints as `(assignI (list name :_:) (list "Nobu" 16))`, while
`[1, 2] := [a, b]` fails with the list diagnostic. -/
theorem c3_destructuring_validation :
    (∀ f tok vals s v s2,
      (s.checkCurrent TokenType.Equal = true ∨ s.checkCurrent TokenType.ColonEq = true
        ∨ s.checkCurrent TokenType.PipeEq = true ∨ s.checkCurrent TokenType.DollarEq = true) →
      assignment f s.advance = (Except.ok v, s2) → isAssignNode v = false →
      (vals.all isTargetShape = true →
        assignRest (f + 1) (Expr.ListLiteral tok vals) s
          = (Except.ok (Expr.Assign (assignInitFlag s.current.kind)
              (assignPublicFlag s.current.kind) (assignMutableFlag s.current.kind)
              tok (Expr.ListLiteral tok vals) v), s2))
      ∧ (vals.all isTargetShape = false →
        assignRest (f + 1) (Expr.ListLiteral tok vals) s
          = (Except.error (PErr.msg "expected variable names or _ for elements"), s2)))
    ∧ (∀ f tok ks vals s v s2,
      (s.checkCurrent TokenType.Equal = true ∨ s.checkCurrent TokenType.ColonEq = true
        ∨ s.checkCurrent TokenType.PipeEq = true ∨ s.checkCurrent TokenType.DollarEq = true) →
      assignment f s.advance = (Except.ok v, s2) → isAssignNode v = false →
      (vals.all isTargetShape = true →
        assignRest (f + 1) (Expr.ObjectLiteral tok ks vals) s
          = (Except.ok (Expr.Assign (assignInitFlag s.current.kind)
              (assignPublicFlag s.current.kind) (assignMutableFlag s.current.kind)
              tok (Expr.ObjectLiteral tok ks vals) v), s2))
      ∧ (vals.all isTargetShape = false →
        assignRest (f + 1) (Expr.ObjectLiteral tok ks vals) s
          = (Except.error (PErr.msg "expected variable names or _ for object values"), s2)))
    ∧ okPrint (expression 50 (initState (tkn TokenType.LBracket "[" 1)
        [tkn TokenType.Id "name" 2, tkn TokenType.Comma "," 6,
         tkn TokenType.Underscore "_" 8, tkn TokenType.RBracket "]" 9,
         tkn TokenType.ColonEq ":=" 11, tkn TokenType.LBracket "[" 14,
         tkn TokenType.Str "Nobu" 15, tkn TokenType.Comma "," 21,
         tkn TokenType.Int "16" 23, tkn TokenType.RBracket "]" 25,
         tkn TokenType.EOF "" 26]))
      = "(assignI (list name :_:) (list \"Nobu\" 16))"
    ∧ (expression 50 (initState (tkn TokenType.LBracket "[" 1)
        [tkn TokenType.Int "1" 2, tkn TokenType.Comma "," 3,
         tkn TokenType.Int "2" 5, tkn TokenType.RBracket "]" 6,
         tkn TokenType.ColonEq ":=" 8, tkn TokenType.LBracket "[" 11,
         tkn TokenType.Id "a" 12, tkn TokenType.Comma "," 13,
         tkn TokenType.Id "b" 15, tkn TokenType.RBracket "]" 16,
         tkn TokenType.EOF "" 17])).1
      = Except.error (PErr.msg "expected variable names or _ for elements") := by
  refine ⟨?_, ?_, rfl, rfl⟩
  · intro f tok vals s v s2 hc ha hv
    exact ⟨assignRest_list_ok f tok vals s v s2 hc ha hv,
      assignRest_list_err f tok vals s v s2 hc ha hv⟩
  · intro f tok ks vals s v s2 hc ha hv
    exact ⟨assignRest_object_ok f tok ks vals s v s2 hc ha hv,
      assignRest_object_err f tok ks vals s v s2 hc ha hv⟩

/-- Witness for C3: a concrete `[x] := 1` pattern where the single element
is a variable (valid), producing the `Assign`. -/
theorem c3_destructuring_validation_witness :
    (PState.mk (tkn TokenType.ColonEq ":=" 5) (tkn TokenType.RBracket "]" 3)
        [tkn TokenType.Int "1" 8, tkn TokenType.EOF "" 9] []).checkCurrent
        TokenType.ColonEq = true
    ∧ ([Expr.Variable (tkn TokenType.Id "x" 2)].all isTargetShape = true
        → assignRest 31
          (Expr.ListLiteral (tkn TokenType.LBracket "[" 1)
            [Expr.Variable (tkn TokenType.Id "x" 2)])
          (PState.mk (tkn TokenType.ColonEq ":=" 5) (tkn TokenType.RBracket "]" 3)
            [tkn TokenType.Int "1" 8, tkn TokenType.EOF "" 9] [])
        = (Except.ok (Expr.Assign true false false (tkn TokenType.LBracket "[" 1)
            (Expr.ListLiteral (tkn TokenType.LBracket "[" 1)
              [Expr.Variable (tkn TokenType.Id "x" 2)])
            (Expr.IntegerLiteral (tkn TokenType.Int "1" 8) 1)),
           PState.mk (tkn TokenType.EOF "" 9) (tkn TokenType.Int "1" 8) [] []))
    ∧ ([Expr.IntegerLiteral (tkn TokenType.Int "1" 2) 1].all isTargetShape = false
        → assignRest 31
          (Expr.ListLiteral (tkn TokenType.LBracket "[" 1)
            [Expr.IntegerLiteral (tkn TokenType.Int "1" 2) 1])
          (PState.mk (tkn TokenType.ColonEq ":=" 5) (tkn TokenType.RBracket "]" 3)
            [tkn TokenType.Int "1" 8, tkn TokenType.EOF "" 9] [])
        = (Except.error (PErr.msg "expected variable names or _ for elements"),
           PState.mk (tkn TokenType.EOF "" 9) (tkn TokenType.Int "1" 8) [] [])) := by
  refine ⟨rfl, ?_, ?_⟩
  · have h := (c3_destructuring_validation.1 30 (tkn TokenType.LBracket "[" 1)
      [Expr.Variable (tkn TokenType.Id "x" 2)]
      (PState.mk (tkn TokenType.ColonEq ":=" 5) (tkn TokenType.RBracket "]" 3)
        [tkn TokenType.Int "1" 8, tkn TokenType.EOF "" 9] [])
      (Expr.IntegerLiteral (tkn TokenType.Int "1" 8) 1)
      (PState.mk (tkn TokenType.EOF "" 9) (tkn TokenType.Int "1" 8) [] [])
      (Or.inr (Or.inl rfl)) rfl rfl).1
    intro hall
    exact h hall
  · have h := (c3_destructuring_validation.1 30 (tkn TokenType.LBracket "[" 1)
      [Expr.IntegerLiteral (tkn TokenType.Int "1" 2) 1]
      (PState.mk (tkn TokenType.ColonEq ":=" 5) (tkn TokenType.RBracket "]" 3)
        [tkn TokenType.Int "1" 8, tkn TokenType.EOF "" 9] [])
      (Expr.IntegerLiteral (tkn TokenType.Int "1" 8) 1)
      (PState.mk (tkn TokenType.EOF "" 9) (tkn TokenType.Int "1" 8) [] [])
      (Or.inr (Or.inl rfl)) rfl rfl).2
    intro hall
    exact h hall

/-- Claim C6: `cond ? a : b` emits no dedicated ternary node: the postfix
loop builds a `Match` whose condition is the already-parsed `cond` and
whose branch list has exactly two branches in order — boolean literal
`true` with body `a`, then `Underscore` with body `b` — and feeds it back
into the loop (first conjunct); concretely, `cool? ? "nobu" : "sol"`
parses to `(match cool? true -> "nobu" :_: -> "sol")`. -/
theorem c6_ternary_desugar :
    (∀ f a e s tv s1 fv s2,
      s.current.kind = TokenType.Question →
      expression f s.advance = (Except.ok tv, s1) →
      s1.current.kind = TokenType.Colon →
      expression f s1.advance = (Except.ok fv, s2) →
      callLoop (f + 1) a e s
        = callLoop f a
            (Expr.Match s.advance.previous e
              [MatchBranch.mk (Expr.BoolLiteral s.advance.previous true) tv,
               MatchBranch.mk (Expr.Underscore s.advance.previous) fv]) s2)
    ∧ okPrint (expression 50 (initState (tkn TokenType.Id "cool?" 1)
        [tkn TokenType.Question "?" 7, tkn TokenType.Str "nobu" 9,
         tkn TokenType.Colon ":" 16, tkn TokenType.Str "sol" 18,
         tkn TokenType.EOF "" 23]))
      = "(match cool? true -> \"nobu\" :_: -> \"sol\")" := by
  refine ⟨?_, rfl⟩
  intro f a e s tv s1 fv s2 hq h1 hc h2
  simp [callLoop, ifMatch, doesMatch, PState.checkCurrent, expect, pbind, hq, h1, hc, h2]

/-- Witness for C6: a concrete ternary over string literals builds the
two-branch `Match`. -/
theorem c6_ternary_desugar_witness :
    (PState.mk (tkn TokenType.Question "?" 7) (tkn TokenType.Id "cool?" 1)
        [tkn TokenType.Str "nobu" 9, tkn TokenType.Colon ":" 16,
         tkn TokenType.Str "sol" 18, tkn TokenType.EOF "" 23] []).current.kind
      = TokenType.Question
    ∧ callLoop 31 none (Expr.Variable (tkn TokenType.Id "cool?" 1))
        (PState.mk (tkn TokenType.Question "?" 7) (tkn TokenType.Id "cool?" 1)
          [tkn TokenType.Str "nobu" 9, tkn TokenType.Colon ":" 16,
           tkn TokenType.Str "sol" 18, tkn TokenType.EOF "" 23] [])
      = callLoop 30 none
          (Expr.Match (tkn TokenType.Question "?" 7)
            (Expr.Variable (tkn TokenType.Id "cool?" 1))
            [MatchBranch.mk (Expr.BoolLiteral (tkn TokenType.Question "?" 7) true)
              (Expr.StringLiteral (tkn TokenType.Str "nobu" 9) "nobu"),
             MatchBranch.mk (Expr.Underscore (tkn TokenType.Question "?" 7))
              (Expr.StringLiteral (tkn TokenType.Str "sol" 18) "sol")])
          (PState.mk (tkn TokenType.EOF "" 23) (tkn TokenType.Str "sol" 18) [] []) :=
  ⟨rfl, c6_ternary_desugar.1 30 none (Expr.Variable (tkn TokenType.Id "cool?" 1))
    (PState.mk (tkn TokenType.Question "?" 7) (tkn TokenType.Id "cool?" 1)
      [tkn TokenType.Str "nobu" 9, tkn TokenType.Colon ":" 16,
       tkn TokenType.Str "sol" 18, tkn TokenType.EOF "" 23] [])
    (Expr.StringLiteral (tkn TokenType.Str "nobu" 9) "nobu")
    (PState.mk (tkn TokenType.Colon ":" 16) (tkn TokenType.Str "nobu" 9)
      [tkn TokenType.Str "sol" 18, tkn TokenType.EOF "" 23] [])
    (Expr.StringLiteral (tkn TokenType.Str "sol" 18) "sol")
    (PState.mk (tkn TokenType.EOF "" 23) (tkn TokenType.Str "sol" 18) [] [])
    rfl rfl rfl rfl⟩

/-- Claim C10: a trailing comma after the rest parameter is a parse
error — whenever the parameter loop is re-entered (after a comma) with the
rest parameter already set, it fails at once with "required parameter
cannot follow rest parameter" even though nothing follows the comma
(first conjunct); concretely `(a+,)` fails that way while `(a,)` — a
trailing comma after an ordinary parameter — still parses. -/
theorem c10_rest_param_trailing_comma :
    (∀ f ps t s, paramsLoop (f + 1) ps (some t) s
      = (Except.error (PErr.msg "required parameter cannot follow rest parameter"), s))
    ∧ (parseParams 50 (PState.mk (tkn TokenType.LParen "(" 7) (tkn TokenType.Id "f" 6)
        [tkn TokenType.Id "a" 8, tkn TokenType.Plus "+" 9, tkn TokenType.Comma "," 10,
         tkn TokenType.RParen ")" 11, tkn TokenType.EOF "" 12] [])).1
      = Except.error (PErr.msg "required parameter cannot follow rest parameter")
    ∧ (parseParams 50 (PState.mk (tkn TokenType.LParen "(" 7) (tkn TokenType.Id "f" 6)
        [tkn TokenType.Id "a" 8, tkn TokenType.Comma "," 9,
         tkn TokenType.RParen ")" 10, tkn TokenType.EOF "" 11] [])).1
      = Except.ok ([tkn TokenType.Id "a" 8], none) :=
  ⟨fun _ _ _ _ => rfl, rfl, rfl⟩

/-- The decorated-function tail: with a non-empty decorator list, the
parsed function is wrapped by `applyDecorators` and bound to the
function's name with `init = true` and `mutable = false`. -/
theorem funcAfterName_decorated (f : Nat) (p : Bool) (ds : List (Expr × List CallArg))
    (n : Token) (s : PState) (pr : List Token × Option Token) (s1 : PState)
    (b : Expr) (s2 : PState) (hne : ds ≠ [])
    (hp : parseParams f s = (Except.ok pr, s1))
    (hb : expression f s1 = (Except.ok b, s2)) :
    funcAfterName (f + 1) p ds (some n) s
      = (Except.ok (Expr.Assign true p false n (Expr.Variable n)
          (applyDecorators ds (Expr.Func false none pr.1 pr.2 b) s2.previous)), s2) := by
  simp only [funcAfterName]
  rw [hp]
  simp only [pbind]
  rw [hb]
  rcases ds with _ | ⟨d, ds⟩
  · exact absurd rfl hne
  · simp [pbind]

/-- Claim C2: a decorated function desugars to nested calls built by
applying the listed decorators left-to-right starting from the bare
anonymous function as the innermost value — the head decorator wraps
first (second conjunct), each decorator's own arguments are appended after
the injected function argument (second conjunct), and the final call
expression is bound to the function's name via `Assign` with
`init = true`, `public` as written, `mutable = false` (first conjunct).
Concretely, `@[dec("x"), other] public func f() {}` produces the AST
printed as `(assignPI f (other (dec (lambda () (object)) "x")))`. -/
theorem c2_decorator_desugar :
    (∀ f p ds n s pr s1 b s2, ds ≠ [] →
      parseParams f s = (Except.ok pr, s1) →
      expression f s1 = (Except.ok b, s2) →
      funcAfterName (f + 1) p ds (some n) s
        = (Except.ok (Expr.Assign true p false n (Expr.Variable n)
            (applyDecorators ds (Expr.Func false none pr.1 pr.2 b) s2.previous)), s2))
    ∧ (∀ d ds base t, applyDecorators (d :: ds) base t
        = applyDecorators ds (Expr.Call d.1 (CallArg.Positional base :: d.2) t) t)
    ∧ okPrint (expression 100 (initState (tkn TokenType.At "@" 1)
        [tkn TokenType.LBracket "[" 2, tkn TokenType.Id "dec" 3,
         tkn TokenType.LParen "(" 6, tkn TokenType.Str "x" 7,
         tkn TokenType.RParen ")" 10, tkn TokenType.Comma "," 11,
         tkn TokenType.Id "other" 13, tkn TokenType.RBracket "]" 18,
         tkn TokenType.Public "public" 20, tkn TokenType.Func "func" 27,
         tkn TokenType.Id "f" 32, tkn TokenType.LParen "(" 33,
         tkn TokenType.RParen ")" 34, tkn TokenType.LBrace "\x7b" 36,
         tkn TokenType.RBrace "\x7d" 37, tkn TokenType.EOF "" 38]))
      = "(assignPI f (other (dec (lambda () (object)) \"x\")))" := by
  refine ⟨?_, fun d ds base t => rfl, rfl⟩
  intro f p ds n s pr s1 b s2 hne hp hb
  exact funcAfterName_decorated f p ds n s pr s1 b s2 hne hp hb

/-- Witness for C2: a one-decorator function `@[dec] func f() {}` at the
`funcAfterName` stage binds the wrapped call to `f`. -/
theorem c2_decorator_desugar_witness :
    ([((Expr.Variable (tkn TokenType.Id "dec" 3), ([] : List CallArg)))] ≠
        ([] : List (Expr × List CallArg)))
    ∧ funcAfterName 31 false
        [(Expr.Variable (tkn TokenType.Id "dec" 3), [])]
        (some (tkn TokenType.Id "f" 10))
        (PState.mk (tkn TokenType.LParen "(" 11) (tkn TokenType.Id "f" 10)
          [tkn TokenType.RParen ")" 12, tkn TokenType.LBrace "\x7b" 14,
           tkn TokenType.RBrace "\x7d" 15, tkn TokenType.EOF "" 16] [])
      = (Except.ok (Expr.Assign true false false (tkn TokenType.Id "f" 10)
          (Expr.Variable (tkn TokenType.Id "f" 10))
          (applyDecorators [(Expr.Variable (tkn TokenType.Id "dec" 3), [])]
            (Expr.Func false none [] none
              (Expr.ObjectLiteral (tkn TokenType.LBrace "\x7b" 14) [] []))
            (tkn TokenType.RBrace "\x7d" 15))),
         PState.mk (tkn TokenType.EOF "" 16) (tkn TokenType.RBrace "\x7d" 15) [] []) :=
  ⟨by simp, c2_decorator_desugar.1 30 false
    [(Expr.Variable (tkn TokenType.Id "dec" 3), [])]
    (tkn TokenType.Id "f" 10)
    (PState.mk (tkn TokenType.LParen "(" 11) (tkn TokenType.Id "f" 10)
      [tkn TokenType.RParen ")" 12, tkn TokenType.LBrace "\x7b" 14,
       tkn TokenType.RBrace "\x7d" 15, tkn TokenType.EOF "" 16] [])
    ([], none)
    (PState.mk (tkn TokenType.LBrace "\x7b" 14) (tkn TokenType.RParen ")" 12)
      [tkn TokenType.RBrace "\x7d" 15, tkn TokenType.EOF "" 16] [])
    (Expr.ObjectLiteral (tkn TokenType.LBrace "\x7b" 14) [] [])
    (PState.mk (tkn TokenType.EOF "" 16) (tkn TokenType.RBrace "\x7d" 15) [] [])
    (by simp) rfl rfl⟩

theorem mContains_of_mGet {m : List (String × Expr)} {k : String} {v : Expr}
    (h : mGet m k = some v) : mContains m k = true := by
  induction m with
  | nil => exact Option.noConfusion h
  | cons q rest ih =>
    unfold mGet at h
    unfold mContains
    split at h
    · next hqk => simp [hqk]
    · rw [ih h]
      simp

/-- Claim C5: the macro facility is a session-scoped name-to-AST table.
`def NAME expr` on a not-yet-defined name stores the parsed expression and
yields a `Null` placeholder; a second `def` of the same name fails with
"macro with the same name is already defined".  `redef NAME expr` fails
when the name was never defined and otherwise replaces the stored
expression, yielding `Null`.  `#NAME` fails with "macro undefined" when
the name is absent and otherwise yields the stored AST at the use site. -/
theorem c5_macro_lifecycle :
    (∀ f s e s2, s.current.kind = TokenType.Def →
      s.advance.current.kind = TokenType.Id →
      expression f s.advance.advance = (Except.ok e, s2) →
      mContains s2.macros (s.advance.advance).previous.value = false →
      primary (f + 1) s
        = (Except.ok (Expr.Null (s.advance.advance).previous),
           { s2 with macros := mInsert s2.macros (s.advance.advance).previous.value e }))
    ∧ (∀ f s e s2, s.current.kind = TokenType.Def →
      s.advance.current.kind = TokenType.Id →
      expression f s.advance.advance = (Except.ok e, s2) →
      mContains s2.macros (s.advance.advance).previous.value = true →
      primary (f + 1) s
        = (Except.error (PErr.msg "macro with the same name is already defined"), s2))
    ∧ (∀ f s e s2, s.current.kind = TokenType.Redef →
      s.advance.current.kind = TokenType.Id →
      expression f s.advance.advance = (Except.ok e, s2) →
      mContains s2.macros (s.advance.advance).previous.value = true →
      primary (f + 1) s
        = (Except.ok (Expr.Null (s.advance.advance).previous),
           { s2 with macros := mInsert s2.macros (s.advance.advance).previous.value e }))
    ∧ (∀ f s e s2, s.current.kind = TokenType.Redef →
      s.advance.current.kind = TokenType.Id →
      expression f s.advance.advance = (Except.ok e, s2) →
      mContains s2.macros (s.advance.advance).previous.value = false →
      primary (f + 1) s
        = (Except.error (PErr.msg "macro with the same name is not defined"), s2))
    ∧ (∀ f s e, s.current.kind = TokenType.Hash →
      s.advance.current.kind = TokenType.Id →
      mGet (s.advance.advance).macros (s.advance.advance).previous.value = some e →
      primary (f + 1) s = (Except.ok e, s.advance.advance))
    ∧ (∀ f s, s.current.kind = TokenType.Hash →
      s.advance.current.kind = TokenType.Id →
      mGet (s.advance.advance).macros (s.advance.advance).previous.value = none →
      primary (f + 1) s
        = (Except.error (PErr.msg "macro undefined"), s.advance.advance)) := by
  refine ⟨?_, ?_, ?_, ?_, ?_, ?_⟩
  · intro f s e s2 hd hid hexp hcon
    simp [primary, ifMatch, doesMatch, PState.checkCurrent, expect, pbind,
      hd, hid, hexp, hcon]
  · intro f s e s2 hd hid hexp hcon
    simp [primary, ifMatch, doesMatch, PState.checkCurrent, expect, pbind,
      hd, hid, hexp, hcon]
  · intro f s e s2 hd hid hexp hcon
    simp [primary, ifMatch, doesMatch, PState.checkCurrent, expect, pbind,
      hd, hid, hexp, hcon]
  · intro f s e s2 hd hid hexp hcon
    simp [primary, ifMatch, doesMatch, PState.checkCurrent, expect, pbind,
      hd, hid, hexp, hcon]
  · intro f s e hd hid hget
    simp [primary, ifMatch, doesMatch, PState.checkCurrent, expect, pbind,
      hd, hid, hget]
  · intro f s hd hid hget
    simp [primary, ifMatch, doesMatch, PState.checkCurrent, expect, pbind,
      hd, hid, hget]

/-- Witness for C5: `def N 1` on an empty table stores `1` and yields
`Null`; `#N` on a table holding `N` yields the stored `1`. -/
theorem c5_macro_lifecycle_witness :
    (PState.mk (tkn TokenType.Def "def" 1) (tkn TokenType.Def "def" 1)
        [tkn TokenType.Id "N" 5, tkn TokenType.Int "1" 7, tkn TokenType.EOF "" 8]
        []).current.kind = TokenType.Def
    ∧ primary 31 (PState.mk (tkn TokenType.Def "def" 1) (tkn TokenType.Def "def" 1)
        [tkn TokenType.Id "N" 5, tkn TokenType.Int "1" 7, tkn TokenType.EOF "" 8] [])
      = (Except.ok (Expr.Null (tkn TokenType.Id "N" 5)),
         PState.mk (tkn TokenType.EOF "" 8) (tkn TokenType.Int "1" 7) []
           [("N", Expr.IntegerLiteral (tkn TokenType.Int "1" 7) 1)])
    ∧ primary 31 (PState.mk (tkn TokenType.Hash "#" 1) (tkn TokenType.Hash "#" 1)
        [tkn TokenType.Id "N" 2, tkn TokenType.EOF "" 3]
        [("N", Expr.IntegerLiteral (tkn TokenType.Int "1" 7) 1)])
      = (Except.ok (Expr.IntegerLiteral (tkn TokenType.Int "1" 7) 1),
         PState.mk (tkn TokenType.EOF "" 3) (tkn TokenType.Id "N" 2) []
           [("N", Expr.IntegerLiteral (tkn TokenType.Int "1" 7) 1)]) :=
  ⟨rfl,
   c5_macro_lifecycle.1 30
     (PState.mk (tkn TokenType.Def "def" 1) (tkn TokenType.Def "def" 1)
       [tkn TokenType.Id "N" 5, tkn TokenType.Int "1" 7, tkn TokenType.EOF "" 8] [])
     (Expr.IntegerLiteral (tkn TokenType.Int "1" 7) 1)
     (PState.mk (tkn TokenType.EOF "" 8) (tkn TokenType.Int "1" 7) [] [])
     rfl rfl rfl rfl,
   c5_macro_lifecycle.2.2.2.2.1 30
     (PState.mk (tkn TokenType.Hash "#" 1) (tkn TokenType.Hash "#" 1)
       [tkn TokenType.Id "N" 2, tkn TokenType.EOF "" 3]
       [("N", Expr.IntegerLiteral (tkn TokenType.Int "1" 7) 1)])
     (Expr.IntegerLiteral (tkn TokenType.Int "1" 7) 1)
     rfl rfl rfl⟩

/-- Claim C9: when `def NAME expr` fails because `NAME` is already
defined, the macro table is left exactly as it was: the duplicate's
expression was fully parsed (the resulting state `s2` is the
post-expression state) but is discarded — the result is the error with
state `s2` unchanged, the previously stored AST for `NAME` is retained,
and a subsequent `#NAME` over the same table still expands to the
original definition. -/
theorem c9_duplicate_def_discards :
    ∀ f f2 s e old s2 t,
      s.current.kind = TokenType.Def →
      s.advance.current.kind = TokenType.Id →
      expression f s.advance.advance = (Except.ok e, s2) →
      mGet s2.macros (s.advance.advance).previous.value = some old →
      t.current.kind = TokenType.Hash →
      t.advance.current.kind = TokenType.Id →
      (t.advance.advance).macros = s2.macros →
      (t.advance.advance).previous.value = (s.advance.advance).previous.value →
      primary (f + 1) s
          = (Except.error (PErr.msg "macro with the same name is already defined"), s2)
        ∧ mGet s2.macros (s.advance.advance).previous.value = some old
        ∧ primary (f2 + 1) t = (Except.ok old, t.advance.advance) := by
  intro f f2 s e old s2 t hd hid hexp hold ht hid2 hmacs hname
  have hcon := mContains_of_mGet hold
  refine ⟨?_, hold, ?_⟩
  · simp [primary, ifMatch, doesMatch, PState.checkCurrent, expect, pbind,
      hd, hid, hexp, hcon]
  · simp [primary, ifMatch, doesMatch, PState.checkCurrent, expect, pbind,
      ht, hid2, hmacs, hname, hold]

/-- Witness for C9: on a table already holding `N ↦ 1`, `def N 2` errors
with the table untouched, and `#N` still yields `1`. -/
theorem c9_duplicate_def_discards_witness :
    (PState.mk (tkn TokenType.Def "def" 1) (tkn TokenType.Def "def" 1)
        [tkn TokenType.Id "N" 5, tkn TokenType.Int "2" 7, tkn TokenType.EOF "" 8]
        [("N", Expr.IntegerLiteral (tkn TokenType.Int "1" 7) 1)]).current.kind
      = TokenType.Def
    ∧ (primary 31 (PState.mk (tkn TokenType.Def "def" 1) (tkn TokenType.Def "def" 1)
          [tkn TokenType.Id "N" 5, tkn TokenType.Int "2" 7, tkn TokenType.EOF "" 8]
          [("N", Expr.IntegerLiteral (tkn TokenType.Int "1" 7) 1)])
        = (Except.error (PErr.msg "macro with the same name is already defined"),
           PState.mk (tkn TokenType.EOF "" 8) (tkn TokenType.Int "2" 7) []
             [("N", Expr.IntegerLiteral (tkn TokenType.Int "1" 7) 1)])
      ∧ mGet [("N", Expr.IntegerLiteral (tkn TokenType.Int "1" 7) 1)] "N"
          = some (Expr.IntegerLiteral (tkn TokenType.Int "1" 7) 1)
      ∧ primary 31 (PState.mk (tkn TokenType.Hash "#" 1) (tkn TokenType.Hash "#" 1)
          [tkn TokenType.Id "N" 2, tkn TokenType.EOF "" 3]
          [("N", Expr.IntegerLiteral (tkn TokenType.Int "1" 7) 1)])
        = (Except.ok (Expr.IntegerLiteral (tkn TokenType.Int "1" 7) 1),
           PState.mk (tkn TokenType.EOF "" 3) (tkn TokenType.Id "N" 2) []
             [("N", Expr.IntegerLiteral (tkn TokenType.Int "1" 7) 1)])) :=
  ⟨rfl,
   c9_duplicate_def_discards 30 30
     (PState.mk (tkn TokenType.Def "def" 1) (tkn TokenType.Def "def" 1)
       [tkn TokenType.Id "N" 5, tkn TokenType.Int "2" 7, tkn TokenType.EOF "" 8]
       [("N", Expr.IntegerLiteral (tkn TokenType.Int "1" 7) 1)])
     (Expr.IntegerLiteral (tkn TokenType.Int "2" 7) 2)
     (Expr.IntegerLiteral (tkn TokenType.Int "1" 7) 1)
     (PState.mk (tkn TokenType.EOF "" 8) (tkn TokenType.Int "2" 7) []
       [("N", Expr.IntegerLiteral (tkn TokenType.Int "1" 7) 1)])
     (PState.mk (tkn TokenType.Hash "#" 1) (tkn TokenType.Hash "#" 1)
       [tkn TokenType.Id "N" 2, tkn TokenType.EOF "" 3]
       [("N", Expr.IntegerLiteral (tkn TokenType.Int "1" 7) 1)])
     rfl rfl rfl rfl rfl rfl rfl rfl⟩

end Impala
